import Mathlib

/-!
Verification of the Observatorio de Agua notification pipeline
(src/rabbitmq_utils.py, src/data_publisher.py, src/admin_consumer.py).

The wire format is Python `json` (json.dumps / json.loads with default
options: separators ", " and ": ", ensure_ascii=True).  We embed JSON
values as `JsonValue`; Python floats are embedded by the decimal literal
that crosses the wire (their shortest round-trip repr), as a mantissa
and a count of fraction digits.  The UTF-8 encode/decode steps of
`serialize_message` / `deserialize_message` are treated as the identity
on text payloads (UTF-8 is a bijection between text and its bytes;
an invalid byte sequence folds into the same `except` branch as a JSON
parse error).
-/

/-- A JSON number as it crosses the wire: either an integer literal or a
decimal literal with `e + 1` fraction digits (value `m / 10 ^ (e+1)`).
Python floats travel as their shortest-repr decimal literal. -/
inductive JNumber where
  | int (i : Int)
  | dec (m : Int) (e : Nat)
deriving DecidableEq

/-- A JSON document, as produced by Python's `json` module: object member
order is kept (Python dicts are insertion-ordered). -/
inductive JsonValue where
  | null
  | bool (b : Bool)
  | num (n : JNumber)
  | str (s : String)
  | arr (xs : List JsonValue)
  | obj (kvs : List (String × JsonValue))

/-! ### Decimal digits -/

/-- Decimal digit character for `d < 10` (last case absorbs 9). -/
def natDigitChar : Nat → Char
  | 0 => '0' | 1 => '1' | 2 => '2' | 3 => '3' | 4 => '4'
  | 5 => '5' | 6 => '6' | 7 => '7' | 8 => '8' | _ => '9'

/-- Fueled digit accumulator (structural, so terms reduce by `rfl`). -/
def natDigitsAux : Nat → Nat → List Char → List Char
  | 0, n, acc => natDigitChar n :: acc
  | fuel + 1, n, acc =>
    if n < 10 then natDigitChar n :: acc
    else natDigitsAux fuel (n / 10) (natDigitChar (n % 10) :: acc)

/-- Decimal digit string of a natural number, as Python `repr` prints it. -/
def natDigits (n : Nat) : List Char := natDigitsAux n n []

/-- Numeric value of a digit string (used by the parser). -/
def digitsVal (ds : List Char) : Nat :=
  ds.foldl (fun a c => a * 10 + (c.toNat - 48)) 0

/-- Munch a maximal digit run. -/
def takeDigits : List Char → List Char × List Char
  | [] => ([], [])
  | c :: rest =>
    if c.isDigit then
      let p := takeDigits rest
      (c :: p.1, p.2)
    else ([], c :: rest)

/-- A list that does not continue a numeric literal: used to state that the
characters that follow a rendered number in a JSON document never extend it. -/
def numBoundary : List Char → Prop
  | [] => True
  | c :: _ => c.isDigit = false ∧ c ≠ '.'

/-! ### Rendering numbers (Python `repr` of ints and of floats as their
shortest-repr decimal literal) -/

def renderInt (i : Int) : List Char :=
  if i < 0 then '-' :: natDigits i.natAbs else natDigits i.toNat

/-- Decimal literal with `e + 1` fraction digits: the digit string of `|m|`
left-padded with zeros to at least `e + 2` characters, with a point inserted
before the last `e + 1` digits, and a leading minus sign when `m < 0`. -/
def renderDec (m : Int) (e : Nat) : List Char :=
  let ds := natDigits m.natAbs
  let pad := List.replicate (e + 2 - ds.length) '0' ++ ds
  let k := pad.length - (e + 1)
  (if m < 0 then ['-'] else []) ++ pad.take k ++ '.' :: pad.drop k

def renderNum : JNumber → List Char
  | .int i => renderInt i
  | .dec m e => renderDec m e

/-! ### Parsing numbers -/

def parseNumAfterSign (neg : Bool) (s1 : List Char) : Option (JNumber × List Char) :=
  match takeDigits s1 with
  | ([], _) => none
  | (ds, s2) =>
    match s2 with
    | '.' :: s3 =>
      match takeDigits s3 with
      | ([], _) => none
      | (fs, s4) =>
        let mag : Int := (digitsVal ds * 10 ^ fs.length + digitsVal fs : Nat)
        some (.dec (if neg then -mag else mag) (fs.length - 1), s4)
    | _ =>
      some (.int (if neg then -(digitsVal ds : Int) else (digitsVal ds : Int)), s2)

/-- Number grammar of `json.loads` restricted to the forms `json.dumps` emits
for this program's values: optional sign, integer digits, optional fraction.
Exponent notation and `NaN`/`Infinity` are omitted; texts using them simply
fail to parse here, which only widens the inputs that reach the consumer's
decode-error marker and never affects texts produced by `render`. -/
def parseNumber : List Char → Option (JNumber × List Char)
  | '-' :: r => parseNumAfterSign true r
  | s => parseNumAfterSign false s

/-! ### String escaping (Python `json.dumps` with `ensure_ascii=True`) -/

/-- Lowercase hexadecimal digit character for `d < 16` (last case absorbs 15). -/
def hexDigitChar : Nat → Char
  | 0 => '0' | 1 => '1' | 2 => '2' | 3 => '3' | 4 => '4'
  | 5 => '5' | 6 => '6' | 7 => '7' | 8 => '8' | 9 => '9'
  | 10 => 'a' | 11 => 'b' | 12 => 'c' | 13 => 'd' | 14 => 'e' | _ => 'f'

/-- Four-digit hexadecimal rendering used by `\uXXXX` escapes. -/
def hex4 (n : Nat) : List Char :=
  [hexDigitChar (n / 4096 % 16), hexDigitChar (n / 256 % 16),
   hexDigitChar (n / 16 % 16), hexDigitChar (n % 16)]

/-- Escape one character the way Python's ensure-ASCII JSON encoder does:
the two JSON metacharacters and the short control escapes get a backslash
form, printable ASCII is copied as is, anything else becomes `\uXXXX`
(with a surrogate pair above the BMP). -/
def escapeChar (c : Char) : List Char :=
  if c = '\\' then ['\\', '\\']
  else if c = '"' then ['\\', '"']
  else if c.toNat = 8 then ['\\', 'b']
  else if c.toNat = 12 then ['\\', 'f']
  else if c = '\n' then ['\\', 'n']
  else if c.toNat = 13 then ['\\', 'r']
  else if c = '\t' then ['\\', 't']
  else if 32 ≤ c.toNat ∧ c.toNat ≤ 126 then [c]
  else if c.toNat < 65536 then '\\' :: 'u' :: hex4 c.toNat
  else
    ('\\' :: 'u' :: hex4 (55296 + (c.toNat - 65536) / 1024)) ++
    ('\\' :: 'u' :: hex4 (56320 + (c.toNat - 65536) % 1024))

def escapeList : List Char → List Char
  | [] => []
  | c :: s => escapeChar c ++ escapeList s

/-- Value of a hexadecimal digit character. -/
def hexVal? (c : Char) : Option Nat :=
  if c.isDigit then some (c.toNat - 48)
  else if 'a' ≤ c ∧ c ≤ 'f' then some (c.toNat - 87)
  else if 'A' ≤ c ∧ c ≤ 'F' then some (c.toNat - 55)
  else none

def parseHex4 : List Char → Option (Nat × List Char)
  | a :: b :: c :: d :: rest =>
    match hexVal? a, hexVal? b, hexVal? c, hexVal? d with
    | some va, some vb, some vc, some vd =>
      some (va * 4096 + vb * 256 + vc * 16 + vd, rest)
    | _, _, _, _ => none
  | _ => none

/-- Decode one backslash escape (the backslash itself already consumed),
combining surrogate pairs as Python's decoder does. -/
def parseEscape : List Char → Option (Char × List Char)
  | '"' :: r => some ('"', r)
  | '\\' :: r => some ('\\', r)
  | '/' :: r => some ('/', r)
  | 'b' :: r => some (Char.ofNat 8, r)
  | 'f' :: r => some (Char.ofNat 12, r)
  | 'n' :: r => some ('\n', r)
  | 'r' :: r => some (Char.ofNat 13, r)
  | 't' :: r => some ('\t', r)
  | 'u' :: r =>
    match parseHex4 r with
    | none => none
    | some (n, r1) =>
      if 55296 ≤ n ∧ n < 56320 then
        match r1 with
        | c1 :: c2 :: r2 =>
          if c1 = '\\' ∧ c2 = 'u' then
            match parseHex4 r2 with
            | none => none
            | some (lo, r3) =>
              if 56320 ≤ lo ∧ lo < 57344 then
                some (Char.ofNat (65536 + (n - 55296) * 1024 + (lo - 56320)), r3)
              else none
          else none
        | _ => none
      else if 56320 ≤ n ∧ n < 57344 then none
      else some (Char.ofNat n, r1)
  | _ => none

/-- Parse the body of a JSON string up to the closing quote.  One unit of
fuel is spent per produced character. -/
def parseStringBody : Nat → List Char → Option (List Char × List Char)
  | _, [] => none
  | 0, _ :: _ => none
  | fuel + 1, c :: rest =>
    if c = '"' then some ([], rest)
    else if c = '\\' then
      match parseEscape rest with
      | none => none
      | some p =>
        match parseStringBody fuel p.2 with
        | none => none
        | some q => some (p.1 :: q.1, q.2)
    else if c.toNat < 32 then none
    else
      match parseStringBody fuel rest with
      | none => none
      | some q => some (c :: q.1, q.2)

/-! ### Whitespace and full documents -/

/-- The whitespace characters Python's JSON parser skips between tokens. -/
def isJsonWs (c : Char) : Bool := c == ' ' || c == '\t' || c == '\n' || c == '\r'

def skipWs : List Char → List Char
  | [] => []
  | c :: rest => if isJsonWs c then skipWs rest else c :: rest

/-- Opening brace character (written by code point). -/
def lbrace : Char := Char.ofNat 123

/-- Closing brace character (written by code point). -/
def rbrace : Char := Char.ofNat 125

/-- Rendering of an object key followed by Python's default key separator. -/
def renderKey (k : String) : List Char :=
  '"' :: (escapeList k.data ++ ['"', ':', ' '])

mutual

/-- Render a `JsonValue` exactly as `json.dumps` prints it (default
separators `", "` and `": "`, `ensure_ascii=True`). -/
def render : JsonValue → List Char
  | .null => 'n' :: ['u', 'l', 'l']
  | .bool true => 't' :: ['r', 'u', 'e']
  | .bool false => 'f' :: ['a', 'l', 's', 'e']
  | .num n => renderNum n
  | .str s => '"' :: (escapeList s.data ++ ['"'])
  | .arr [] => ['[', ']']
  | .arr (x :: xs) => '[' :: (renderElems (x :: xs) ++ [']'])
  | .obj [] => [lbrace, rbrace]
  | .obj (kv :: kvs) => lbrace :: (renderMembers (kv :: kvs) ++ [rbrace])

def renderElems : List JsonValue → List Char
  | [] => []
  | [x] => render x
  | x :: xs => render x ++ ',' :: ' ' :: renderElems xs

def renderMembers : List (String × JsonValue) → List Char
  | [] => []
  | [(k, v)] => renderKey k ++ render v
  | (k, v) :: kvs => renderKey k ++ render v ++ ',' :: ' ' :: renderMembers kvs

end

mutual

/-- Size measure bounding the parser fuel a document needs. -/
def jsize : JsonValue → Nat
  | .arr xs => 1 + jsizeElems xs
  | .obj kvs => 1 + jsizeMembers kvs
  | _ => 1

def jsizeElems : List JsonValue → Nat
  | [] => 0
  | x :: xs => 1 + jsize x + jsizeElems xs

def jsizeMembers : List (String × JsonValue) → Nat
  | [] => 0
  | (_, v) :: kvs => 1 + jsize v + jsizeMembers kvs

end

def stripChar (c : Char) : List Char → Option (List Char)
  | d :: r => if d = c then some r else none
  | [] => none

mutual

/-- Recursive-descent JSON parser modelling `json.loads`.  The fuel bounds
the combined nesting and element count; `json_loads` passes enough for any
input it can accept. -/
def parseValue : Nat → List Char → Option (JsonValue × List Char)
  | 0, _ => none
  | fuel + 1, s =>
    match skipWs s with
    | [] => none
    | c :: r =>
      if c = '"' then
        match parseStringBody (r.length + 1) r with
        | none => none
        | some p => some (.str (String.mk p.1), p.2)
      else if c = '[' then
        match stripChar ']' (skipWs r) with
        | some r2 => some (.arr [], r2)
        | none =>
          match parseElems fuel r with
          | none => none
          | some p => some (.arr p.1, p.2)
      else if c = lbrace then
        match stripChar rbrace (skipWs r) with
        | some r2 => some (.obj [], r2)
        | none =>
          match parseMembers fuel r with
          | none => none
          | some p => some (.obj p.1, p.2)
      else if c = 't' then
        match r with
        | 'r' :: 'u' :: 'e' :: r2 => some (.bool true, r2)
        | _ => none
      else if c = 'f' then
        match r with
        | 'a' :: 'l' :: 's' :: 'e' :: r2 => some (.bool false, r2)
        | _ => none
      else if c = 'n' then
        match r with
        | 'u' :: 'l' :: 'l' :: r2 => some (.null, r2)
        | _ => none
      else
        match parseNumber (c :: r) with
        | none => none
        | some p => some (.num p.1, p.2)

def parseElems : Nat → List Char → Option (List JsonValue × List Char)
  | 0, _ => none
  | fuel + 1, s =>
    match parseValue fuel s with
    | none => none
    | some p =>
      match skipWs p.2 with
      | [] => none
      | c :: r2 =>
        if c = ',' then
          match parseElems fuel r2 with
          | none => none
          | some q => some (p.1 :: q.1, q.2)
        else if c = ']' then some ([p.1], r2)
        else none

def parseMembers : Nat → List Char → Option (List (String × JsonValue) × List Char)
  | 0, _ => none
  | fuel + 1, s =>
    match skipWs s with
    | [] => none
    | c :: r =>
      if c = '"' then
        match parseStringBody (r.length + 1) r with
        | none => none
        | some kp =>
          match skipWs kp.2 with
          | [] => none
          | d :: r2 =>
            if d = ':' then
              match parseValue fuel r2 with
              | none => none
              | some vp =>
                match skipWs vp.2 with
                | [] => none
                | e :: r4 =>
                  if e = ',' then
                    match parseMembers fuel r4 with
                    | none => none
                    | some q => some ((String.mk kp.1, vp.1) :: q.1, q.2)
                  else if e = rbrace then some ([(String.mk kp.1, vp.1)], r4)
                  else none
            else none
      else none

end

/-- Model of `json.loads`: parse one document, allow trailing whitespace
only.  The fuel `s.length + 1` is enough for any accepted input because
every recursive step consumes at least one character. -/
def json_loads (s : List Char) : Option JsonValue :=
  match parseValue (s.length + 1) s with
  | none => none
  | some (v, rest) => if skipWs rest = [] then some v else none

/-- Model of `json.dumps` restricted to the values the programs build. -/
def json_dumps (v : JsonValue) : List Char := render v

/-- Characters that may legally start a rendered JSON value: the parser
treats them as the first character of a token (no whitespace, and none of
the characters that close a container or separate items). -/
abbrev goodStart (c : Char) : Prop :=
  isJsonWs c = false ∧ c ≠ ']' ∧ c ≠ rbrace ∧ c ≠ ',' ∧ c ≠ ':'

/-! ### The codec of src/rabbitmq_utils.py -/

/-- Model of an arbitrary Python object handed to the codec: either a value
the `json` module can represent, or an unserializable object (which makes
`json.dumps` raise the `TypeError` that `serialize_message` catches). -/
inductive PyData where
  | json (v : JsonValue)
  | unserializable

/-- The payload `serialize_message` falls back to when `json.dumps` raises. -/
def serializeErrorMarker : JsonValue :=
  .obj [("error", .str "Error de serialización")]

/-- The record `deserialize_message` returns when decoding fails. -/
def decodeErrorMarker : JsonValue :=
  .obj [("error", .str "Error al deserializar mensaje")]

/-- Model of `serialize_message` (src/rabbitmq_utils.py lines 76-82):
`json.dumps(data).encode('utf-8')`, with the `except` branch returning the
serialization-error payload instead of raising.  The wire is modelled as
the text the UTF-8 bytes encode. -/
def serialize_message : PyData → List Char
  | .json v => json_dumps v
  | .unserializable => json_dumps serializeErrorMarker

/-- Model of `deserialize_message` (src/rabbitmq_utils.py lines 84-90):
`json.loads(body.decode('utf-8'))`, with the `except` branch returning the
error-marker record instead of raising (a malformed UTF-8 byte sequence
takes the same branch). -/
def deserialize_message (body : List Char) : JsonValue :=
  match json_loads body with
  | some v => v
  | none => decodeErrorMarker

/-! ### Broker constants (src/rabbitmq_utils.py lines 21-23) -/

def EXCHANGE_NAME : String := "observatorio_events"

def QUEUE_NAME : String := "admin_notifications"

def ROUTING_KEY : String := "water.data.uploaded"

/-! ### Connection manager (src/rabbitmq_utils.py, RabbitMQConnection) -/

/-- Outcome of the broker's side of a connection attempt: the broker either
accepts, or `pika.BlockingConnection` raises an `AMQPConnectionError`
(covering both an unreachable broker and rejected credentials). -/
inductive BrokerStartup where
  | accepts
  | unreachable
  | rejectsCredentials

/-- Model of `RabbitMQConnection.connect` (src/rabbitmq_utils.py lines
39-67): the `try` block returns `True` on success; the
`except AMQPConnectionError` branch logs and returns `False`.  The boolean
is the Python return value; no exception escapes for these outcomes. -/
def connect : BrokerStartup → Bool
  | .accepts => true
  | .unreachable => false
  | .rejectsCredentials => false

/-! ### Publisher (src/data_publisher.py) -/

def WATER_PARAMETERS : List String :=
  ["pH", "Turbidez", "Oxígeno disuelto", "Conductividad",
   "Coliformes totales", "E. coli", "Nitratos", "Fosfatos",
   "Temperatura", "Sólidos suspendidos"]

def SAMPLE_LOCATIONS : List String :=
  ["Río Principal - Estación Norte",
   "Río Principal - Estación Centro",
   "Río Principal - Estación Sur",
   "Afluente Este",
   "Afluente Oeste",
   "Laguna Central",
   "Embalse Municipal"]

def REPORTING_ENTITIES : List String :=
  ["Secretaría de Medio Ambiente",
   "Instituto Hidrológico Municipal",
   "Universidad Autónoma - Facultad de Ingeniería Ambiental",
   "Empresa de Servicios Públicos",
   "ONG EcoAgua"]

/-- Model of `random.randint(lo, hi)`: its contract is a value in
`[lo, hi]`; the seed selects which one. -/
def randint (lo hi seed : Nat) : Nat := lo + seed % (hi - lo + 1)

/-- Model of `random.choice(xs)` for the non-empty constant lists above. -/
def choice (xs : List String) (seed : Nat) : String := xs.getD (seed % xs.length) ""

/-- Model of `round(random.uniform(a, b), nd)` as the decimal literal of its
repr: some mantissa with between 1 and `nd` fraction digits (the `.dec`
field counts fraction digits minus one). -/
def roundUniform (nd mSeed fSeed : Nat) : JNumber := .dec mSeed (fSeed % nd)

/-- One measurement dict as built by `simulate_data_upload`. -/
structure Measurement where
  parameter : String
  value : JNumber
  unit : String
  threshold_exceeded : Bool
deriving DecidableEq

/-- The JSON object appended to `measurements` for one measurement
(src/data_publisher.py lines 103-108). -/
def measurementJson (m : Measurement) : JsonValue :=
  .obj [("parameter", .str m.parameter),
        ("value", .num m.value),
        ("unit", .str m.unit),
        ("threshold_exceeded", .bool m.threshold_exceeded)]

/-- The full upload record assembled by `simulate_data_upload`. -/
structure UploadRecord where
  batch_id : String
  timestamp : String
  location : String
  reporting_entity : String
  measurements : List Measurement
  device_id : String
  upload_method : String
  comments : String

/-- The JSON object `simulate_data_upload` returns
(src/data_publisher.py lines 111-122). -/
def uploadJson (u : UploadRecord) : JsonValue :=
  .obj [("batch_id", .str u.batch_id),
        ("timestamp", .str u.timestamp),
        ("location", .str u.location),
        ("reporting_entity", .str u.reporting_entity),
        ("measurements", .arr (u.measurements.map measurementJson)),
        ("metadata", .obj [("device_id", .str u.device_id),
                           ("upload_method", .str u.upload_method),
                           ("comments", .str u.comments)])]

/-- The random draws one run of `simulate_data_upload` consumes, plus the
strings `uuid.uuid4()` and `datetime.now().isoformat()` return. -/
structure RandomSource where
  uuidStr : String
  nowStr : String
  locSeed : Nat
  entSeed : Nat
  numSeed : Nat
  paramSeed : Nat → Nat
  mantissaSeed : Nat → Nat
  fracSeed : Nat → Nat
  countSeed : Nat → Nat
  exceedDraw : Nat → Bool
  deviceSeed : Nat
  methodSeed : Nat

/-- The i-th iteration of the measurement loop
(src/data_publisher.py lines 77-108): pick a parameter, derive value and
unit by the same if/elif chain, and draw the threshold flag. -/
def gen_measurement (src : RandomSource) (i : Nat) : Measurement :=
  let parameter := choice WATER_PARAMETERS (src.paramSeed i)
  let vu : JNumber × String :=
    if parameter = "pH" then
      (roundUniform 2 (src.mantissaSeed i) (src.fracSeed i), "pH")
    else if parameter = "Temperatura" then
      (roundUniform 1 (src.mantissaSeed i) (src.fracSeed i), "°C")
    else if parameter = "Turbidez" then
      (roundUniform 2 (src.mantissaSeed i) (src.fracSeed i), "NTU")
    else if parameter = "Oxígeno disuelto" then
      (roundUniform 2 (src.mantissaSeed i) (src.fracSeed i), "mg/L")
    else if parameter = "Coliformes totales" ∨ parameter = "E. coli" then
      (.int (randint 0 5000 (src.countSeed i) : Nat), "UFC/100mL")
    else
      (roundUniform 2 (src.mantissaSeed i) (src.fracSeed i), "mg/L")
  { parameter := parameter
    value := vu.1
    unit := vu.2
    threshold_exceeded := src.exceedDraw i }

/-- Model of `simulate_data_upload` (src/data_publisher.py lines 57-126):
the randomness is drawn from the explicit source. -/
def simulate_data_upload (src : RandomSource) : UploadRecord :=
  let batch_id := src.uuidStr
  let location := choice SAMPLE_LOCATIONS src.locSeed
  let entity := choice REPORTING_ENTITIES src.entSeed
  let num_measurements := randint 3 10 src.numSeed
  let timestamp := src.nowStr
  let measurements := (List.range num_measurements).map (gen_measurement src)
  { batch_id := batch_id
    timestamp := timestamp
    location := location
    reporting_entity := entity
    measurements := measurements
    device_id := "SENSOR-" ++ String.mk (natDigits (randint 1000 9999 src.deviceSeed))
    upload_method := choice ["API", "Desktop App", "Field Device"] src.methodSeed
    comments := "Datos simulados para prueba de concepto" }

/-- The notification envelope `publish_notification` builds
(src/data_publisher.py lines 138-142). -/
def notificationJson (envTs : String) (data : JsonValue) : JsonValue :=
  .obj [("event_type", .str "data_upload"),
        ("timestamp", .str envTs),
        ("data", data)]

/-! ### Python-level faults and dict access -/

/-- The faults the consumer's handler can raise while reading the decoded
record: a missing dict key, or a non-dict/non-list where one is expected. -/
inductive PyError where
  | keyError (k : String)
  | typeError (msg : String)
deriving DecidableEq

/-- Model of a Python `d[k]` subscript on a decoded JSON value: a `KeyError`
when the key is absent, a `TypeError` when the value is not a dict. -/
def dictGet (d : JsonValue) (k : String) : Except PyError JsonValue :=
  match d with
  | .obj kvs =>
    match kvs.lookup k with
    | some v => .ok v
    | none => .error (.keyError k)
  | _ => .error (.typeError "not subscriptable")

/-- Python truthiness of a decoded JSON value (`if m['threshold_exceeded']`). -/
def pyTruthy : JsonValue → Bool
  | .null => false
  | .bool b => b
  | .num (.int i) => decide (i ≠ 0)
  | .num (.dec m _) => decide (m ≠ 0)
  | .str s => !s.data.isEmpty
  | .arr xs => !xs.isEmpty
  | .obj kvs => !kvs.isEmpty

/-! ### Consumer display (src/admin_consumer.py, ConsoleNotifier) -/

/-- Counter state of `ConsoleNotifier`. -/
structure NotifierState where
  notification_count : Nat
deriving DecidableEq

/-- What one line of the measurements loop shows
(src/admin_consumer.py lines 94-104). -/
structure MeasLine where
  parameter : JsonValue
  value : JsonValue
  unit : JsonValue
  exceeded : Bool

/-- Everything `display_notification` renders for one notification. -/
structure RenderOut where
  batch_id : JsonValue
  timestamp : JsonValue
  location : JsonValue
  entity : JsonValue
  lines : List MeasLine
  alertBanner : Option Nat

/-- The measurements loop (src/admin_consumer.py lines 94-104): reads the
four fields of each measurement in order and raises on the first missing
one. -/
def displayMeasurements : List JsonValue → Except PyError (List MeasLine)
  | [] => .ok []
  | m :: ms => do
    let p ← dictGet m "parameter"
    let v ← dictGet m "value"
    let u ← dictGet m "unit"
    let ex ← dictGet m "threshold_exceeded"
    let rest ← displayMeasurements ms
    .ok ({ parameter := p, value := v, unit := u, exceeded := pyTruthy ex } :: rest)

/-- The alert list comprehension
`[m for m in measurements if m['threshold_exceeded']]`
(src/admin_consumer.py line 107). -/
def alertsOf : List JsonValue → Except PyError (List JsonValue)
  | [] => .ok []
  | m :: ms => do
    let ex ← dictGet m "threshold_exceeded"
    let rest ← alertsOf ms
    .ok (if pyTruthy ex then m :: rest else rest)

/-- Model of `ConsoleNotifier.display_notification`
(src/admin_consumer.py lines 68-113).  The counter is incremented first
(line 75), before any field access can raise; the second component is the
rendered output, or the fault the field accesses raise.  The alert banner
(lines 107-110) is shown only when the alert list is non-empty, and shows
its length. -/
def display_notification (st : NotifierState) (data : JsonValue) :
    NotifierState × Except PyError RenderOut :=
  ({ st with notification_count := st.notification_count + 1 },
    do
      let d ← dictGet data "data"
      let batch_id ← dictGet d "batch_id"
      let ts ← dictGet d "timestamp"
      let loc ← dictGet d "location"
      let ent ← dictGet d "reporting_entity"
      let meas ← dictGet d "measurements"
      match meas with
      | .arr ms => do
        let lines ← displayMeasurements ms
        let alerts ← alertsOf ms
        .ok { batch_id := batch_id, timestamp := ts, location := loc,
              entity := ent, lines := lines,
              alertBanner := if alerts.length = 0 then none
                             else some alerts.length }
      | _ => .error (.typeError "not iterable"))

/-- The subfields of `data` that `display_notification` subscripts, in the
order the source accesses them (src/admin_consumer.py lines 79-83). -/
def REQUIRED_DATA_FIELDS : List String :=
  ["batch_id", "timestamp", "location", "reporting_entity", "measurements"]

/-- The first required subfield (in access order) absent from a decoded
`data` dict: the key whose subscript is the one that raises in
`display_notification` when the record is incomplete. -/
def firstMissingField (kvs : List (String × JsonValue)) : Option String :=
  REQUIRED_DATA_FIELDS.find? (fun k => (kvs.lookup k).isNone)

/-! ### Message processing (src/admin_consumer.py, process_message) -/

/-- Observable steps of one `process_message` invocation, in order. -/
inductive Step where
  | decoded (d : JsonValue)
  | handled (d : JsonValue) (ok : Bool)
  | acked (tag : Nat)

/-- Result of one `process_message` call. -/
structure ProcessResult where
  state : NotifierState
  trace : List Step
  fault : Option PyError

/-- Model of `process_message` (src/admin_consumer.py lines 115-134):
deserialize the body, hand the decoded record to the notifier, and call
`basic_ack` afterwards; an exception in the handler aborts before the ack
line runs. -/
def process_message (st : NotifierState) (tag : Nat) (body : List Char) :
    ProcessResult :=
  let data := deserialize_message body
  let r := display_notification st data
  match r.2 with
  | .ok _ => ⟨r.1, [.decoded data, .handled data true, .acked tag], none⟩
  | .error e => ⟨r.1, [.decoded data, .handled data false], some e⟩

/-! ### Consumer setup and broker-side prefetch semantics -/

/-- Channel operations, in the order `setup_consumer` issues them. -/
inductive ChanOp where
  | queueDeclare (queue : String) (durable : Bool)
  | queueBind (exchange queue routing_key : String)
  | basicQos (prefetch_count : Nat)
  | basicConsume (queue : String)
deriving DecidableEq

/-- Model of `setup_consumer` (src/admin_consumer.py lines 136-175): the
sequence of channel calls it makes. -/
def setup_consumer : List ChanOp :=
  [.queueDeclare QUEUE_NAME true,
   .queueBind EXCHANGE_NAME QUEUE_NAME ROUTING_KEY,
   .basicQos 1,
   .basicConsume QUEUE_NAME]

/-- Broker-side delivery/acknowledgment events for one consumer. -/
inductive BrokerEvent where
  | deliver
  | ack
deriving DecidableEq

/-- Modelled from the spec glossary: "Prefetch: maximum number of
unacknowledged messages a consumer may hold at once."  A trace is valid for
prefetch `p` when the broker only delivers while fewer than `p` messages
are outstanding, and acknowledgments only arrive for outstanding messages;
the `Nat` is the number of outstanding (unacknowledged) messages after the
trace. -/
inductive ValidTrace (p : Nat) : List BrokerEvent → Nat → Prop where
  | nil : ValidTrace p [] 0
  | deliver {es n} : ValidTrace p es n → n < p →
      ValidTrace p (es ++ [.deliver]) (n + 1)
  | ack {es n} : ValidTrace p es n → 0 < n →
      ValidTrace p (es ++ [.ack]) (n - 1)

/-! ### Process mains (startup paths) -/

/-- Observable startup outcome of either process's `main`. -/
inductive StartupOutcome where
  | enteredLoop
  | exitedBeforeLoop
deriving DecidableEq

/-- The error line both mains log when `connect` returns `False`
(src/admin_consumer.py line 206, src/data_publisher.py line 186). -/
def CONNECT_FAILED_LOG : String :=
  "No se pudo conectar a RabbitMQ. Verifique que el servicio esté en ejecución."

/-- Model of the startup path of the consumer's `main`
(src/admin_consumer.py lines 203-210): `if not rmq_connection.connect():`
log the error and `return` before any consuming starts.  The result pairs
the outcome with the log lines of this path; the `Except` layer records
that no fault escapes. -/
def consumer_main (b : BrokerStartup) :
    Except PyError (StartupOutcome × List String) :=
  if connect b then .ok (.enteredLoop, [])
  else .ok (.exitedBeforeLoop, [CONNECT_FAILED_LOG])

/-- Model of the startup path of the publisher's `main`
(src/data_publisher.py lines 183-187). -/
def publisher_main (b : BrokerStartup) :
    Except PyError (StartupOutcome × List String) :=
  if connect b then .ok (.enteredLoop, [])
  else .ok (.exitedBeforeLoop, [CONNECT_FAILED_LOG])

/-! ### Publishing (src/data_publisher.py, publish_notification) -/

/-- Transport outcome of the `basic_publish` call: accepted, or a raised
transport-level error (caught by the function's `except`). -/
inductive Transport where
  | accepts
  | rejects (msg : String)

/-- One `basic_publish` command with the properties the publisher sets. -/
structure PublishCmd where
  exchange : String
  routing_key : String
  body : List Char
  delivery_mode : Nat
  content_type : String

/-- Log lines `publish_notification` can emit. -/
inductive PubLog where
  | publishedSummary (batch_id : JsonValue)
  | publishError (msg : String)

/-- Result of one `publish_notification` call: the Python return value, the
single attempted publish command, and the log lines. -/
structure PublishResult where
  ok : Bool
  attempts : List PublishCmd
  logs : List PubLog

/-- Model of `publish_notification` (src/data_publisher.py lines 128-162):
build the envelope, serialize it, call `basic_publish` once with the fixed
exchange, routing key, persistent delivery mode and JSON content type, then
log the summary keyed by `data['batch_id']`.  A transport rejection is
caught, logged and turned into `False`; there is no retry (the attempt list
always has exactly the one command).  The summary's f-string subscript
`data['batch_id']` sits inside the `try`, so a missing key also lands in
the `except` branch. -/
def publish_notification (t : Transport) (envTs : String) (data : JsonValue) :
    PublishResult :=
  let notification := notificationJson envTs data
  let message_body := serialize_message (.json notification)
  let cmd : PublishCmd :=
    { exchange := EXCHANGE_NAME
      routing_key := ROUTING_KEY
      body := message_body
      delivery_mode := 2
      content_type := "application/json" }
  match t with
  | .accepts =>
    match dictGet data "batch_id" with
    | .ok bid => { ok := true, attempts := [cmd], logs := [.publishedSummary bid] }
    | .error _ =>
      { ok := false, attempts := [cmd], logs := [.publishError "KeyError"] }
  | .rejects msg =>
    { ok := false, attempts := [cmd], logs := [.publishError msg] }

/-! ### Theorems: supporting lemmas, then the claims -/

theorem natDigitChar_isDigit {d : Nat} (h : d < 10) :
    (natDigitChar d).isDigit = true := by
  interval_cases d <;> decide

theorem natDigitChar_toNat {d : Nat} (h : d < 10) :
    (natDigitChar d).toNat - 48 = d := by
  interval_cases d <;> decide

theorem natDigits_lt {n : Nat} (h : n < 10) : natDigits n = [natDigitChar n] := by
  match n with
  | 0 => rfl
  | m + 1 => simp [natDigits, natDigitsAux, h]

theorem natDigitsAux_acc (n : Nat) : ∀ fuel acc, n ≤ fuel →
    natDigitsAux fuel n acc = natDigits n ++ acc := by
  induction n using Nat.strong_induction_on with
  | _ n ih =>
    intro fuel acc hle
    by_cases h : n < 10
    · rw [natDigits_lt h]
      match fuel with
      | 0 => rfl
      | f + 1 => simp [natDigitsAux, h]
    · match fuel with
      | 0 => omega
      | f + 1 =>
        have hd : n / 10 < n := Nat.div_lt_self (by omega) (by omega)
        simp only [natDigitsAux]
        rw [if_neg h, ih (n / 10) hd f _ (by omega)]
        have hn : natDigits n = natDigits (n / 10) ++ [natDigitChar (n % 10)] := by
          obtain ⟨m, rfl⟩ : ∃ m, n = m + 1 := ⟨n - 1, by omega⟩
          show natDigitsAux (m + 1) (m + 1) [] = _
          simp only [natDigitsAux]
          rw [if_neg h, ih ((m + 1) / 10) hd m _ (by omega)]
        rw [hn]
        simp

theorem natDigits_ge {n : Nat} (h : 10 ≤ n) :
    natDigits n = natDigits (n / 10) ++ [natDigitChar (n % 10)] := by
  obtain ⟨m, rfl⟩ : ∃ m, n = m + 1 := ⟨n - 1, by omega⟩
  show natDigitsAux (m + 1) (m + 1) [] = _
  simp only [natDigitsAux]
  rw [if_neg (by omega : ¬ m + 1 < 10), natDigitsAux_acc ((m + 1) / 10) m _ (by omega)]

theorem natDigits_ne_nil (n : Nat) : natDigits n ≠ [] := by
  by_cases h : n < 10
  · simp [natDigits_lt h]
  · simp [natDigits_ge (by omega : 10 ≤ n)]

theorem natDigits_all_digit (n : Nat) : ∀ c ∈ natDigits n, c.isDigit = true := by
  induction n using Nat.strong_induction_on with
  | _ n ih =>
    by_cases h : n < 10
    · rw [natDigits_lt h]
      simpa using natDigitChar_isDigit h
    · rw [natDigits_ge (by omega : 10 ≤ n)]
      intro c hc
      rcases List.mem_append.mp hc with h1 | h1
      · exact ih (n / 10) (Nat.div_lt_self (by omega) (by omega)) c h1
      · simp only [List.mem_singleton] at h1
        subst h1
        exact natDigitChar_isDigit (Nat.mod_lt _ (by omega))

theorem digits_foldl_acc (b : List Char) :
    ∀ acc : Nat,
      b.foldl (fun a c => a * 10 + (c.toNat - 48)) acc =
        acc * 10 ^ b.length + b.foldl (fun a c => a * 10 + (c.toNat - 48)) 0 := by
  induction b with
  | nil => intro acc; simp
  | cons c t ih =>
    intro acc
    simp only [List.foldl_cons, List.length_cons]
    rw [ih (acc * 10 + (c.toNat - 48)), ih (0 * 10 + (c.toNat - 48))]
    ring

theorem digitsVal_append (a b : List Char) :
    digitsVal (a ++ b) = digitsVal a * 10 ^ b.length + digitsVal b := by
  unfold digitsVal
  rw [List.foldl_append, digits_foldl_acc]

theorem digitsVal_natDigits (n : Nat) : digitsVal (natDigits n) = n := by
  induction n using Nat.strong_induction_on with
  | _ n ih =>
    by_cases h : n < 10
    · rw [natDigits_lt h]
      simp [digitsVal, natDigitChar_toNat h]
    · rw [natDigits_ge (by omega : 10 ≤ n), digitsVal_append,
        ih (n / 10) (Nat.div_lt_self (by omega) (by omega))]
      simp [digitsVal, natDigitChar_toNat (Nat.mod_lt n (show 0 < 10 by omega))]
      omega

theorem digitsVal_replicate_zero (n : Nat) (ds : List Char) :
    digitsVal (List.replicate n '0' ++ ds) = digitsVal ds := by
  have h0 : digitsVal (List.replicate n '0') = 0 := by
    induction n with
    | zero => rfl
    | succ m ih =>
      have : List.replicate (m + 1) '0' = List.replicate m '0' ++ ['0'] := by
        rw [List.replicate_succ' ]
      rw [this, digitsVal_append, ih]
      rfl
  rw [digitsVal_append, h0]
  omega

theorem takeDigits_append (ds rest : List Char)
    (hds : ∀ c ∈ ds, c.isDigit = true)
    (hrest : ∀ c t, rest = c :: t → c.isDigit = false) :
    takeDigits (ds ++ rest) = (ds, rest) := by
  induction ds with
  | nil =>
    simp only [List.nil_append]
    match rest, hrest with
    | [], _ => rfl
    | c :: t, hr =>
      simp [takeDigits, hr c t rfl]
  | cons c ds ih =>
    have hc : c.isDigit = true := hds c (by simp)
    have ih' := ih (fun x hx => hds x (by simp [hx]))
    simp only [List.cons_append, takeDigits, hc, if_true, List.append_eq, ih']

theorem parseNumber_dash (t : List Char) :
    parseNumber ('-' :: t) = parseNumAfterSign true t := rfl

theorem parseNumber_not_dash {c : Char} (t : List Char) (hc : c ≠ '-') :
    parseNumber (c :: t) = parseNumAfterSign false (c :: t) := by
  unfold parseNumber
  split
  · rename_i r heq
    rw [List.cons.injEq] at heq
    exact absurd heq.1 hc
  · rfl

theorem numBoundary_not_digit (rest : List Char) (hb : numBoundary rest) :
    ∀ c t, rest = c :: t → c.isDigit = false := by
  intro c t h
  subst h
  exact hb.1

theorem parseNumAfterSign_digits (neg : Bool) (n : Nat) (rest : List Char)
    (hb : numBoundary rest) :
    parseNumAfterSign neg (natDigits n ++ rest) =
      some (.int (if neg then -(n : Int) else (n : Int)), rest) := by
  obtain ⟨c, t, hct⟩ := List.exists_cons_of_ne_nil (natDigits_ne_nil n)
  have htd : takeDigits (natDigits n ++ rest) = (c :: t, rest) := by
    rw [takeDigits_append _ _ (natDigits_all_digit n) (numBoundary_not_digit rest hb), hct]
  have hval : digitsVal (c :: t) = n := by
    rw [← hct, digitsVal_natDigits]
  unfold parseNumAfterSign
  rw [htd]
  dsimp only
  cases rest with
  | nil => simp [hval]
  | cons r rrest =>
    have hr : r ≠ '.' := hb.2
    split
    · rename_i s3 heq
      rw [List.cons.injEq] at heq
      exact absurd heq.1 hr
    · simp [hval]

theorem parseNumber_renderInt (i : Int) (rest : List Char) (hb : numBoundary rest) :
    parseNumber (renderInt i ++ rest) = some (.int i, rest) := by
  by_cases hi : i < 0
  · rw [renderInt, if_pos hi, List.cons_append, parseNumber_dash,
      parseNumAfterSign_digits true _ _ hb]
    simp only [Option.some.injEq, Prod.mk.injEq, JNumber.int.injEq, eq_self_iff_true,
      if_true]
    refine ⟨?_, trivial⟩
    omega
  · rw [renderInt, if_neg hi]
    obtain ⟨c, t, hct⟩ := List.exists_cons_of_ne_nil (natDigits_ne_nil i.toNat)
    have hcd : c.isDigit = true := natDigits_all_digit i.toNat c (by rw [hct]; simp)
    have hc : c ≠ '-' := by
      intro h
      subst h
      exact absurd hcd (by decide)
    rw [hct, List.cons_append, parseNumber_not_dash _ hc, ← List.cons_append, ← hct,
      parseNumAfterSign_digits false _ _ hb]
    simp only [Option.some.injEq, Prod.mk.injEq, JNumber.int.injEq,
      if_neg (by decide : ¬ (false : Bool) = true)]
    refine ⟨?_, trivial⟩
    omega

theorem parseNumber_renderDec (m : Int) (e : Nat) (rest : List Char)
    (hb : numBoundary rest) :
    parseNumber (renderDec m e ++ rest) = some (.dec m e, rest) := by
  set L := (natDigits m.natAbs).length with hL
  set P : List Char := List.replicate (e + 2 - L) '0' ++ natDigits m.natAbs with hP
  have hPlen : e + 2 ≤ P.length := by
    rw [hP]
    simp only [List.length_append, List.length_replicate]
    omega
  set k : Nat := P.length - (e + 1) with hk
  have hk1 : 1 ≤ k := by omega
  have hPdig : ∀ c ∈ P, c.isDigit = true := by
    intro c hc
    rw [hP] at hc
    rcases List.mem_append.mp hc with h1 | h1
    · rw [List.eq_of_mem_replicate h1]
      decide
    · exact natDigits_all_digit _ c h1
  have hrd : renderDec m e = (if m < 0 then ['-'] else []) ++ P.take k ++ '.' :: P.drop k := by
    rw [renderDec]
  have htake_len : (P.take k).length = k := by
    rw [List.length_take]
    omega
  have hdrop_len : (P.drop k).length = e + 1 := by
    rw [List.length_drop]
    omega
  have hval : digitsVal (P.take k) * 10 ^ (e + 1) + digitsVal (P.drop k) = m.natAbs := by
    have h2 := digitsVal_append (P.take k) (P.drop k)
    rw [List.take_append_drop, hdrop_len] at h2
    rw [← h2, hP, digitsVal_replicate_zero, digitsVal_natDigits]
  obtain ⟨c, t, hct⟩ : ∃ c t, P.take k = c :: t := by
    cases hcase : P.take k with
    | nil => rw [hcase] at htake_len; simp at htake_len; omega
    | cons c t => exact ⟨c, t, rfl⟩
  obtain ⟨c2, t2, hct2⟩ : ∃ c2 t2, P.drop k = c2 :: t2 := by
    cases hcase : P.drop k with
    | nil => rw [hcase] at hdrop_len; simp at hdrop_len
    | cons c2 t2 => exact ⟨c2, t2, rfl⟩
  have hcore : ∀ neg : Bool,
      (if neg = true then -(m.natAbs : Int) else (m.natAbs : Int)) = m →
      parseNumAfterSign neg (P.take k ++ '.' :: (P.drop k ++ rest)) =
        some (.dec m e, rest) := by
    intro neg hneg
    have htd : takeDigits (P.take k ++ '.' :: (P.drop k ++ rest)) =
        (c :: t, '.' :: (P.drop k ++ rest)) := by
      rw [takeDigits_append _ _ (fun x hx => hPdig x (List.mem_of_mem_take hx))
        (by intro c' t' h'; rw [List.cons.injEq] at h'; rw [← h'.1]; decide), hct]
    have htd2 : takeDigits (P.drop k ++ rest) = (c2 :: t2, rest) := by
      rw [takeDigits_append _ _ (fun x hx => hPdig x (List.mem_of_mem_drop hx))
        (numBoundary_not_digit rest hb), hct2]
    unfold parseNumAfterSign
    rw [htd]
    dsimp only
    split
    · rename_i s3 heq
      rw [List.cons.injEq] at heq
      rw [← heq.2, htd2]
      dsimp only
      have hfs : (c2 :: t2).length = e + 1 := by rw [← hct2]; exact hdrop_len
      have hmag : digitsVal (c :: t) * 10 ^ (c2 :: t2).length + digitsVal (c2 :: t2)
          = m.natAbs := by
        rw [hfs, ← hct, ← hct2]
        exact hval
      rw [hmag, hfs, hneg]
      norm_num
    · rename_i hne
      exact absurd rfl (hne (P.drop k ++ rest))
  by_cases hm : m < 0
  · rw [hrd, if_pos hm]
    have hshape : (['-'] ++ P.take k ++ '.' :: P.drop k) ++ rest =
        '-' :: (P.take k ++ '.' :: (P.drop k ++ rest)) := by simp
    rw [hshape, parseNumber_dash]
    exact hcore true (by rw [if_pos rfl]; omega)
  · rw [hrd, if_neg hm]
    have hshape : (([] : List Char) ++ P.take k ++ '.' :: P.drop k) ++ rest =
        P.take k ++ '.' :: (P.drop k ++ rest) := by simp
    rw [hshape]
    have hcd : c.isDigit = true := hPdig c (List.mem_of_mem_take (by rw [hct]; simp))
    have hcdash : c ≠ '-' := by
      intro h
      subst h
      exact absurd hcd (by decide)
    rw [show P.take k ++ '.' :: (P.drop k ++ rest) =
        c :: (t ++ '.' :: (P.drop k ++ rest)) from by simp [hct],
      parseNumber_not_dash _ hcdash,
      show c :: (t ++ '.' :: (P.drop k ++ rest)) =
        P.take k ++ '.' :: (P.drop k ++ rest) from by simp [hct]]
    exact hcore false (by rw [if_neg (by decide : ¬ (false : Bool) = true)]; omega)

theorem parseNumber_renderNum (n : JNumber) (rest : List Char) (hb : numBoundary rest) :
    parseNumber (renderNum n ++ rest) = some (n, rest) := by
  cases n with
  | int i => exact parseNumber_renderInt i rest hb
  | dec m e => exact parseNumber_renderDec m e rest hb

theorem renderNum_head (n : JNumber) :
    ∃ c t, renderNum n = c :: t ∧ (c = '-' ∨ c.isDigit = true) := by
  cases n with
  | int i =>
    by_cases hi : i < 0
    · exact ⟨'-', natDigits i.natAbs, by rw [renderNum, renderInt, if_pos hi], Or.inl rfl⟩
    · obtain ⟨c, t, hct⟩ := List.exists_cons_of_ne_nil (natDigits_ne_nil i.toNat)
      exact ⟨c, t, by rw [renderNum, renderInt, if_neg hi, hct],
        Or.inr (natDigits_all_digit i.toNat c (by rw [hct]; simp))⟩
  | dec m e =>
    set L := (natDigits m.natAbs).length with hL
    set P : List Char := List.replicate (e + 2 - L) '0' ++ natDigits m.natAbs with hP
    have hPlen : e + 2 ≤ P.length := by
      rw [hP]
      simp only [List.length_append, List.length_replicate]
      omega
    set k : Nat := P.length - (e + 1) with hk
    have htake_len : (P.take k).length = k := by
      rw [List.length_take]
      omega
    have hPdig : ∀ c ∈ P, c.isDigit = true := by
      intro c hc
      rw [hP] at hc
      rcases List.mem_append.mp hc with h1 | h1
      · rw [List.eq_of_mem_replicate h1]
        decide
      · exact natDigits_all_digit _ c h1
    have hrd : renderDec m e = (if m < 0 then ['-'] else []) ++ P.take k ++ '.' :: P.drop k := by
      rw [renderDec]
    by_cases hm : m < 0
    · refine ⟨'-', P.take k ++ '.' :: P.drop k, ?_, Or.inl rfl⟩
      rw [renderNum, hrd, if_pos hm]
      simp
    · obtain ⟨c, t, hct⟩ : ∃ c t, P.take k = c :: t := by
        cases hcase : P.take k with
        | nil => rw [hcase] at htake_len; simp at htake_len; omega
        | cons c t => exact ⟨c, t, rfl⟩
      refine ⟨c, t ++ '.' :: P.drop k, ?_, Or.inr ?_⟩
      · rw [renderNum, hrd, if_neg hm, hct]
        simp
      · exact hPdig c (List.mem_of_mem_take (by rw [hct]; simp))

theorem char_toNat_lt (c : Char) : c.toNat < 1114112 := by
  have heq : c.toNat = c.val.toNat := rfl
  rcases c.valid with h | h
  · omega
  · rw [heq]
    exact h.2

theorem char_not_surrogate (c : Char) : c.toNat < 55296 ∨ 57344 ≤ c.toNat := by
  have heq : c.toNat = c.val.toNat := rfl
  rcases c.valid with h | h
  · left
    omega
  · right
    rw [heq]
    exact h.1

theorem hexVal_hexDigitChar {d : Nat} (h : d < 16) :
    hexVal? (hexDigitChar d) = some d := by
  interval_cases d <;> decide

theorem parseHex4_hex4 (n : Nat) (h : n < 65536) (rest : List Char) :
    parseHex4 (hex4 n ++ rest) = some (n, rest) := by
  show parseHex4 (hexDigitChar (n / 4096 % 16) :: hexDigitChar (n / 256 % 16) ::
    hexDigitChar (n / 16 % 16) :: hexDigitChar (n % 16) :: rest) = some (n, rest)
  unfold parseHex4
  dsimp only
  rw [hexVal_hexDigitChar (Nat.mod_lt _ (by omega)),
    hexVal_hexDigitChar (Nat.mod_lt _ (by omega)),
    hexVal_hexDigitChar (Nat.mod_lt _ (by omega)),
    hexVal_hexDigitChar (Nat.mod_lt _ (by omega))]
  dsimp only
  congr 1
  rw [Prod.mk.injEq]
  refine ⟨?_, rfl⟩
  omega

theorem psb_quote (f : Nat) (rest : List Char) :
    parseStringBody (f + 1) ('"' :: rest) = some ([], rest) := by
  simp [parseStringBody]

theorem psb_backslash (f : Nat) (rest : List Char) :
    parseStringBody (f + 1) ('\\' :: rest) =
      match parseEscape rest with
      | none => none
      | some p =>
        match parseStringBody f p.2 with
        | none => none
        | some q => some (p.1 :: q.1, q.2) := by
  simp [parseStringBody]

theorem psb_literal (f : Nat) (c : Char) (rest : List Char)
    (h1 : c ≠ '\\') (h2 : c ≠ '"') (h3 : ¬ c.toNat < 32) :
    parseStringBody (f + 1) (c :: rest) =
      match parseStringBody f rest with
      | none => none
      | some q => some (c :: q.1, q.2) := by
  simp [parseStringBody, h1, h2, h3]

theorem pe_backslash (X : List Char) : parseEscape ('\\' :: X) = some ('\\', X) := rfl

theorem pe_quote (X : List Char) : parseEscape ('"' :: X) = some ('"', X) := rfl

theorem pe_b (X : List Char) : parseEscape ('b' :: X) = some (Char.ofNat 8, X) := rfl

theorem pe_f (X : List Char) : parseEscape ('f' :: X) = some (Char.ofNat 12, X) := rfl

theorem pe_n (X : List Char) : parseEscape ('n' :: X) = some ('\n', X) := rfl

theorem pe_r (X : List Char) : parseEscape ('r' :: X) = some (Char.ofNat 13, X) := rfl

theorem pe_t (X : List Char) : parseEscape ('t' :: X) = some ('\t', X) := rfl

theorem pe_u (X : List Char) :
    parseEscape ('u' :: X) =
      match parseHex4 X with
      | none => none
      | some (n, r1) =>
        if 55296 ≤ n ∧ n < 56320 then
          match r1 with
          | c1 :: c2 :: r2 =>
            if c1 = '\\' ∧ c2 = 'u' then
              match parseHex4 r2 with
              | none => none
              | some (lo, r3) =>
                if 56320 ≤ lo ∧ lo < 57344 then
                  some (Char.ofNat (65536 + (n - 55296) * 1024 + (lo - 56320)), r3)
                else none
            else none
          | _ => none
        else if 56320 ≤ n ∧ n < 57344 then none
        else some (Char.ofNat n, r1) := rfl

theorem pe_u_low (n : Nat) (h : n < 65536) (hns : n < 55296 ∨ 57344 ≤ n) (X : List Char) :
    parseEscape ('u' :: (hex4 n ++ X)) = some (Char.ofNat n, X) := by
  rw [pe_u, parseHex4_hex4 n h]
  dsimp only
  rw [if_neg (by omega : ¬ (55296 ≤ n ∧ n < 56320)),
    if_neg (by omega : ¬ (56320 ≤ n ∧ n < 57344))]

theorem pe_u_pair (cn : Nat) (h1 : 65536 ≤ cn) (h2 : cn < 1114112) (X : List Char) :
    parseEscape ('u' :: (hex4 (55296 + (cn - 65536) / 1024) ++
      ('\\' :: 'u' :: (hex4 (56320 + (cn - 65536) % 1024) ++ X)))) =
      some (Char.ofNat cn, X) := by
  rw [pe_u, parseHex4_hex4 (55296 + (cn - 65536) / 1024) (by omega)]
  dsimp only
  rw [if_pos (by omega : 55296 ≤ 55296 + (cn - 65536) / 1024 ∧
    55296 + (cn - 65536) / 1024 < 56320)]
  rw [if_pos (⟨rfl, rfl⟩ : ('\\' : Char) = '\\' ∧ ('u' : Char) = 'u')]
  rw [parseHex4_hex4 (56320 + (cn - 65536) % 1024) (by omega)]
  dsimp only
  rw [if_pos (by omega : 56320 ≤ 56320 + (cn - 65536) % 1024 ∧
    56320 + (cn - 65536) % 1024 < 57344)]
  have harith : 65536 + (55296 + (cn - 65536) / 1024 - 55296) * 1024 +
      (56320 + (cn - 65536) % 1024 - 56320) = cn := by omega
  rw [harith]

theorem psb_backslash_some (f : Nat) (r X s1 rest : List Char) (ch : Char)
    (hpe : parseEscape r = some (ch, X))
    (hind : parseStringBody f X = some (s1, rest)) :
    parseStringBody (f + 1) ('\\' :: r) = some (ch :: s1, rest) := by
  rw [psb_backslash, hpe]
  dsimp only
  rw [hind]

theorem parseStringBody_escapeChar (c : Char) (f : Nat) (tail s1 rest : List Char)
    (hind : parseStringBody f tail = some (s1, rest)) :
    parseStringBody (f + 1) (escapeChar c ++ tail) = some (c :: s1, rest) := by
  by_cases h1 : c = '\\'
  · subst h1
    rw [show escapeChar '\\' = ['\\', '\\'] from by decide]
    simp only [List.cons_append, List.nil_append]
    exact psb_backslash_some f _ _ _ _ _ (pe_backslash tail) hind
  by_cases h2 : c = '"'
  · subst h2
    rw [show escapeChar '"' = ['\\', '"'] from by decide]
    simp only [List.cons_append, List.nil_append]
    exact psb_backslash_some f _ _ _ _ _ (pe_quote tail) hind
  by_cases h3 : c.toNat = 8
  · have hc : c = Char.ofNat 8 := by rw [← Char.ofNat_toNat c, h3]
    rw [hc, show escapeChar (Char.ofNat 8) = ['\\', 'b'] from by decide]
    simp only [List.cons_append, List.nil_append]
    exact psb_backslash_some f _ _ _ _ _ (pe_b tail) hind
  by_cases h4 : c.toNat = 12
  · have hc : c = Char.ofNat 12 := by rw [← Char.ofNat_toNat c, h4]
    rw [hc, show escapeChar (Char.ofNat 12) = ['\\', 'f'] from by decide]
    simp only [List.cons_append, List.nil_append]
    exact psb_backslash_some f _ _ _ _ _ (pe_f tail) hind
  by_cases h5 : c = '\n'
  · subst h5
    rw [show escapeChar '\n' = ['\\', 'n'] from by decide]
    simp only [List.cons_append, List.nil_append]
    exact psb_backslash_some f _ _ _ _ _ (pe_n tail) hind
  by_cases h6 : c.toNat = 13
  · have hc : c = Char.ofNat 13 := by rw [← Char.ofNat_toNat c, h6]
    rw [hc, show escapeChar (Char.ofNat 13) = ['\\', 'r'] from by decide]
    simp only [List.cons_append, List.nil_append]
    exact psb_backslash_some f _ _ _ _ _ (pe_r tail) hind
  by_cases h7 : c = '\t'
  · subst h7
    rw [show escapeChar '\t' = ['\\', 't'] from by decide]
    simp only [List.cons_append, List.nil_append]
    exact psb_backslash_some f _ _ _ _ _ (pe_t tail) hind
  by_cases h8 : 32 ≤ c.toNat ∧ c.toNat ≤ 126
  · have he : escapeChar c = [c] := by
      rw [escapeChar, if_neg h1, if_neg h2, if_neg h3, if_neg h4, if_neg h5,
        if_neg h6, if_neg h7, if_pos h8]
    rw [he]
    simp only [List.cons_append, List.nil_append]
    rw [psb_literal f c _ h1 h2 (by omega)]
    rw [hind]
  by_cases h9 : c.toNat < 65536
  · have he : escapeChar c = '\\' :: 'u' :: hex4 c.toNat := by
      rw [escapeChar, if_neg h1, if_neg h2, if_neg h3, if_neg h4, if_neg h5,
        if_neg h6, if_neg h7, if_neg h8, if_pos h9]
    rw [he]
    simp only [List.cons_append]
    have hpe := pe_u_low c.toNat h9 (char_not_surrogate c) tail
    rw [Char.ofNat_toNat] at hpe
    exact psb_backslash_some f _ _ _ _ _ hpe hind
  · have he : escapeChar c =
        ('\\' :: 'u' :: hex4 (55296 + (c.toNat - 65536) / 1024)) ++
        ('\\' :: 'u' :: hex4 (56320 + (c.toNat - 65536) % 1024)) := by
      rw [escapeChar, if_neg h1, if_neg h2, if_neg h3, if_neg h4, if_neg h5,
        if_neg h6, if_neg h7, if_neg h8, if_neg h9]
    rw [he]
    simp only [List.cons_append, List.append_assoc]
    have hpe := pe_u_pair c.toNat (by omega) (char_toNat_lt c) tail
    rw [Char.ofNat_toNat] at hpe
    exact psb_backslash_some f _ _ _ _ _ hpe hind

theorem parseStringBody_escapeList (s : List Char) : ∀ fuel, s.length < fuel →
    ∀ rest, parseStringBody fuel (escapeList s ++ '"' :: rest) = some (s, rest) := by
  induction s with
  | nil =>
    intro fuel hf rest
    obtain ⟨f, rfl⟩ : ∃ f, fuel = f + 1 := ⟨fuel - 1, by omega⟩
    exact psb_quote f rest
  | cons c s ih =>
    intro fuel hf rest
    obtain ⟨f, rfl⟩ : ∃ f, fuel = f + 1 := ⟨fuel - 1, by omega⟩
    have hs : s.length < f := by
      simp only [List.length_cons] at hf
      omega
    show parseStringBody (f + 1) ((escapeChar c ++ escapeList s) ++ '"' :: rest) =
      some (c :: s, rest)
    rw [List.append_assoc]
    exact parseStringBody_escapeChar c f _ s rest (ih f hs rest)

theorem escapeChar_length_pos (c : Char) : 1 ≤ (escapeChar c).length := by
  unfold escapeChar
  split_ifs <;> simp

theorem escapeList_length_ge (s : List Char) : s.length ≤ (escapeList s).length := by
  induction s with
  | nil => simp [escapeList]
  | cons c s ih =>
    show (c :: s).length ≤ (escapeChar c ++ escapeList s).length
    simp only [List.length_cons, List.length_append]
    have := escapeChar_length_pos c
    omega

theorem stringMk_data (s : String) : String.mk s.data = s := by
  cases s
  rfl

theorem skipWs_not_ws {c : Char} (t : List Char) (h : isJsonWs c = false) :
    skipWs (c :: t) = c :: t := by
  simp [skipWs, h]

theorem parseValue_cons_space (fuel : Nat) (s : List Char) :
    parseValue fuel (' ' :: s) = parseValue fuel s := by
  cases fuel <;> rfl

theorem parseElems_cons_space (f : Nat) (s : List Char) :
    parseElems (f + 1) (' ' :: s) = parseElems (f + 1) s := by
  simp only [parseElems, parseValue_cons_space]

theorem parseMembers_cons_space (f : Nat) (s : List Char) :
    parseMembers (f + 1) (' ' :: s) = parseMembers (f + 1) s := rfl

theorem digit_ne {c : Char} (hd : c.isDigit = true) (d : Char)
    (hdn : d.isDigit = false) : c ≠ d := by
  intro h
  subst h
  rw [hd] at hdn
  cases hdn

theorem digit_goodStart {c : Char} (hd : c.isDigit = true) : goodStart c := by
  refine ⟨?_, digit_ne hd _ (by decide), digit_ne hd _ (by decide),
    digit_ne hd _ (by decide), digit_ne hd _ (by decide)⟩
  simp only [isJsonWs, Bool.or_eq_false_iff, beq_eq_false_iff_ne]
  exact ⟨⟨⟨digit_ne hd _ (by decide), digit_ne hd _ (by decide)⟩,
    digit_ne hd _ (by decide)⟩, digit_ne hd _ (by decide)⟩

theorem digit_not_special {c : Char} (hd : c.isDigit = true) :
    c ≠ '"' ∧ c ≠ '[' ∧ c ≠ lbrace ∧ c ≠ 't' ∧ c ≠ 'f' ∧ c ≠ 'n' :=
  ⟨digit_ne hd _ (by decide), digit_ne hd _ (by decide), digit_ne hd _ (by decide),
    digit_ne hd _ (by decide), digit_ne hd _ (by decide), digit_ne hd _ (by decide)⟩

theorem renderNum_head_goodStart (n : JNumber) :
    ∃ c t, renderNum n = c :: t ∧ goodStart c ∧
      c ≠ '"' ∧ c ≠ '[' ∧ c ≠ lbrace ∧ c ≠ 't' ∧ c ≠ 'f' ∧ c ≠ 'n' := by
  obtain ⟨c, t, hct, hc⟩ := renderNum_head n
  refine ⟨c, t, hct, ?_⟩
  rcases hc with rfl | hd
  · exact ⟨⟨by decide, by decide, by decide, by decide, by decide⟩,
      by decide, by decide, by decide, by decide, by decide, by decide⟩
  · exact ⟨digit_goodStart hd, digit_not_special hd⟩

theorem render_head (v : JsonValue) : ∃ c t, render v = c :: t ∧ goodStart c := by
  cases v with
  | null => exact ⟨'n', ['u', 'l', 'l'], by simp [render], by decide⟩
  | bool b =>
    cases b with
    | true => exact ⟨'t', ['r', 'u', 'e'], by simp [render], by decide⟩
    | false => exact ⟨'f', ['a', 'l', 's', 'e'], by simp [render], by decide⟩
  | num n =>
    obtain ⟨c, t, hct, hg, _⟩ := renderNum_head_goodStart n
    exact ⟨c, t, by simp [render, hct], hg⟩
  | str s => exact ⟨'"', escapeList s.data ++ ['"'], by simp [render], by decide⟩
  | arr xs =>
    cases xs with
    | nil => exact ⟨'[', [']'], by simp [render], by decide⟩
    | cons x xs =>
      exact ⟨'[', renderElems (x :: xs) ++ [']'], by simp [render], by decide⟩
  | obj kvs =>
    cases kvs with
    | nil => exact ⟨lbrace, [rbrace], by simp [render], by decide⟩
    | cons kv kvs =>
      exact ⟨lbrace, renderMembers (kv :: kvs) ++ [rbrace], by simp [render], by decide⟩

theorem renderElems_head (x : JsonValue) (xs : List JsonValue) :
    ∃ c t, renderElems (x :: xs) = c :: t ∧ goodStart c := by
  obtain ⟨c, t, hct, hg⟩ := render_head x
  cases xs with
  | nil => exact ⟨c, t, by simp [renderElems, hct], hg⟩
  | cons y ys =>
    exact ⟨c, t ++ ',' :: ' ' :: renderElems (y :: ys), by simp [renderElems, hct], hg⟩

theorem jsize_pos (v : JsonValue) : 1 ≤ jsize v := by
  cases v <;> simp [jsize]

theorem jsizeElems_pos (x : JsonValue) (xs : List JsonValue) :
    1 ≤ jsizeElems (x :: xs) := by
  simp only [jsizeElems]
  omega

theorem jsizeMembers_pos (kv : String × JsonValue) (kvs : List (String × JsonValue)) :
    1 ≤ jsizeMembers (kv :: kvs) := by
  obtain ⟨k, v⟩ := kv
  simp only [jsizeMembers]
  omega

theorem pv_null (f : Nat) (rest : List Char) :
    parseValue (f + 1) ('n' :: 'u' :: 'l' :: 'l' :: rest) = some (.null, rest) := rfl

theorem pv_true (f : Nat) (rest : List Char) :
    parseValue (f + 1) ('t' :: 'r' :: 'u' :: 'e' :: rest) = some (.bool true, rest) := rfl

theorem pv_false (f : Nat) (rest : List Char) :
    parseValue (f + 1) ('f' :: 'a' :: 'l' :: 's' :: 'e' :: rest) =
      some (.bool false, rest) := rfl

theorem pv_str (f : Nat) (r : List Char) :
    parseValue (f + 1) ('"' :: r) =
      match parseStringBody (r.length + 1) r with
      | none => none
      | some p => some (.str (String.mk p.1), p.2) := rfl

theorem pv_arr_empty (f : Nat) (rest : List Char) :
    parseValue (f + 1) ('[' :: ']' :: rest) = some (.arr [], rest) := rfl

theorem pv_obj_empty (f : Nat) (rest : List Char) :
    parseValue (f + 1) (lbrace :: rbrace :: rest) = some (.obj [], rest) := rfl

theorem pv_arr_ne (f : Nat) (r : List Char) (h : stripChar ']' (skipWs r) = none)
    (xs : List JsonValue) (rest : List Char)
    (hrec : parseElems f r = some (xs, rest)) :
    parseValue (f + 1) ('[' :: r) = some (.arr xs, rest) := by
  have h0 : parseValue (f + 1) ('[' :: r) =
      match stripChar ']' (skipWs r) with
      | some r2 => some (.arr [], r2)
      | none =>
        match parseElems f r with
        | none => none
        | some p => some (.arr p.1, p.2) := rfl
  rw [h0, h, hrec]

theorem pv_obj_ne (f : Nat) (r : List Char) (h : stripChar rbrace (skipWs r) = none)
    (kvs : List (String × JsonValue)) (rest : List Char)
    (hrec : parseMembers f r = some (kvs, rest)) :
    parseValue (f + 1) (lbrace :: r) = some (.obj kvs, rest) := by
  have h0 : parseValue (f + 1) (lbrace :: r) =
      match stripChar rbrace (skipWs r) with
      | some r2 => some (.obj [], r2)
      | none =>
        match parseMembers f r with
        | none => none
        | some p => some (.obj p.1, p.2) := rfl
  rw [h0, h, hrec]

theorem pv_number (f : Nat) (c : Char) (r : List Char) (hws : isJsonWs c = false)
    (h1 : c ≠ '"') (h2 : c ≠ '[') (h3 : c ≠ lbrace) (h4 : c ≠ 't') (h5 : c ≠ 'f')
    (h6 : c ≠ 'n') (n : JNumber) (rest : List Char)
    (hnum : parseNumber (c :: r) = some (n, rest)) :
    parseValue (f + 1) (c :: r) = some (.num n, rest) := by
  simp only [parseValue]
  rw [skipWs_not_ws r hws]
  dsimp only
  rw [if_neg h1, if_neg h2, if_neg h3, if_neg h4, if_neg h5, if_neg h6, hnum]

theorem stripChar_none {d c : Char} (t : List Char) (h : d ≠ c) :
    stripChar c (d :: t) = none := by
  simp [stripChar, h]

theorem parseElems_last (f : Nat) (s : List Char) (v : JsonValue) (rest : List Char)
    (hv : parseValue f s = some (v, ']' :: rest)) :
    parseElems (f + 1) s = some ([v], rest) := by
  simp only [parseElems]
  rw [hv]
  dsimp only
  rw [skipWs_not_ws rest (by decide)]
  dsimp only
  rw [if_neg (by decide : ¬ (']' : Char) = ','), if_pos rfl]

theorem parseElems_cons (f : Nat) (s : List Char) (v : JsonValue) (r : List Char)
    (hv : parseValue f s = some (v, ',' :: r))
    (ys : List JsonValue) (rest : List Char)
    (hrec : parseElems f r = some (ys, rest)) :
    parseElems (f + 1) s = some (v :: ys, rest) := by
  simp only [parseElems]
  rw [hv]
  dsimp only
  rw [skipWs_not_ws r (by decide)]
  dsimp only
  rw [if_pos rfl, hrec]

theorem parseMembers_last (f : Nat) (r kd r2 : List Char) (v : JsonValue)
    (rest : List Char)
    (hk : parseStringBody (r.length + 1) r = some (kd, ':' :: r2))
    (hv : parseValue f r2 = some (v, rbrace :: rest)) :
    parseMembers (f + 1) ('"' :: r) = some ([(String.mk kd, v)], rest) := by
  simp only [parseMembers]
  rw [skipWs_not_ws r (by decide)]
  dsimp only
  rw [if_pos rfl, hk]
  dsimp only
  rw [skipWs_not_ws r2 (by decide)]
  dsimp only
  rw [if_pos rfl, hv]
  dsimp only
  rw [skipWs_not_ws rest (by decide)]
  dsimp only
  rw [if_neg (by decide : ¬ rbrace = ','), if_pos rfl]

theorem parseMembers_cons (f : Nat) (r kd r2 : List Char) (v : JsonValue)
    (r4 : List Char) (kvs : List (String × JsonValue)) (rest : List Char)
    (hk : parseStringBody (r.length + 1) r = some (kd, ':' :: r2))
    (hv : parseValue f r2 = some (v, ',' :: r4))
    (hrec : parseMembers f r4 = some (kvs, rest)) :
    parseMembers (f + 1) ('"' :: r) = some ((String.mk kd, v) :: kvs, rest) := by
  simp only [parseMembers]
  rw [skipWs_not_ws r (by decide)]
  dsimp only
  rw [if_pos rfl, hk]
  dsimp only
  rw [skipWs_not_ws r2 (by decide)]
  dsimp only
  rw [if_pos rfl, hv]
  dsimp only
  rw [skipWs_not_ws r4 (by decide)]
  dsimp only
  rw [if_pos rfl, hrec]

theorem renderMembers_head (k : String) (v : JsonValue)
    (kvs : List (String × JsonValue)) :
    ∃ t, renderMembers ((k, v) :: kvs) = '"' :: t := by
  cases kvs with
  | nil => exact ⟨escapeList k.data ++ ['"', ':', ' '] ++ render v,
      by simp [renderMembers, renderKey]⟩
  | cons kv2 kvs2 =>
    exact ⟨escapeList k.data ++ ['"', ':', ' '] ++ render v ++
      ',' :: ' ' :: renderMembers (kv2 :: kvs2),
      by simp [renderMembers, renderKey]⟩

theorem parse_render_all : ∀ fuel,
    (∀ v rest, jsize v ≤ fuel → numBoundary rest →
      parseValue fuel (render v ++ rest) = some (v, rest)) ∧
    (∀ x xs rest, jsizeElems (x :: xs) ≤ fuel →
      parseElems fuel (renderElems (x :: xs) ++ ']' :: rest) = some (x :: xs, rest)) ∧
    (∀ k v kvs rest, jsizeMembers ((k, v) :: kvs) ≤ fuel →
      parseMembers fuel (renderMembers ((k, v) :: kvs) ++ rbrace :: rest) =
        some ((k, v) :: kvs, rest)) := by
  intro fuel
  induction fuel with
  | zero =>
    refine ⟨?_, ?_, ?_⟩
    · intro v rest hsz _
      have := jsize_pos v
      omega
    · intro x xs rest hsz
      have := jsizeElems_pos x xs
      omega
    · intro k v kvs rest hsz
      have := jsizeMembers_pos (k, v) kvs
      omega
  | succ f ih =>
    obtain ⟨ih1, ih2, ih3⟩ := ih
    refine ⟨?_, ?_, ?_⟩
    · -- parseValue inverts render
      intro v rest hsz hb
      cases v with
      | null =>
        rw [show render .null = ['n', 'u', 'l', 'l'] from by simp [render]]
        exact pv_null f rest
      | bool b =>
        cases b with
        | true =>
          rw [show render (.bool true) = ['t', 'r', 'u', 'e'] from by simp [render]]
          exact pv_true f rest
        | false =>
          rw [show render (.bool false) = ['f', 'a', 'l', 's', 'e'] from by
            simp [render]]
          exact pv_false f rest
      | num n =>
        rw [show render (.num n) = renderNum n from by simp [render]]
        obtain ⟨c, t, hct, hg, hs1, hs2, hs3, hs4, hs5, hs6⟩ :=
          renderNum_head_goodStart n
        rw [hct, List.cons_append]
        refine pv_number f c _ hg.1 hs1 hs2 hs3 hs4 hs5 hs6 n rest ?_
        rw [← List.cons_append, ← hct]
        exact parseNumber_renderNum n rest hb
      | str s =>
        rw [show render (.str s) = '"' :: (escapeList s.data ++ ['"']) from by
          simp [render]]
        simp only [List.cons_append, List.append_assoc, List.singleton_append,
            List.nil_append]
        rw [pv_str, parseStringBody_escapeList s.data _ (by
          have := escapeList_length_ge s.data
          simp only [List.length_append]
          omega) rest]
      | arr xs =>
        cases xs with
        | nil =>
          rw [show render (.arr []) = ['[', ']'] from by simp [render]]
          exact pv_arr_empty f rest
        | cons x xs =>
          rw [show render (.arr (x :: xs)) = '[' :: (renderElems (x :: xs) ++ [']'])
            from by simp [render]]
          simp only [List.cons_append, List.append_assoc, List.singleton_append,
            List.nil_append]
          obtain ⟨c, t, hct, hg⟩ := renderElems_head x xs
          refine pv_arr_ne f _ ?_ (x :: xs) rest ?_
          · rw [hct, List.cons_append, skipWs_not_ws _ hg.1]
            exact stripChar_none _ hg.2.1
          · refine ih2 x xs rest ?_
            simp only [jsize] at hsz
            omega
      | obj kvs =>
        cases kvs with
        | nil =>
          rw [show render (.obj []) = [lbrace, rbrace] from by simp [render]]
          exact pv_obj_empty f rest
        | cons kv kvs =>
          obtain ⟨k, v⟩ := kv
          rw [show render (.obj ((k, v) :: kvs)) =
            lbrace :: (renderMembers ((k, v) :: kvs) ++ [rbrace]) from by
            simp [render]]
          simp only [List.cons_append, List.append_assoc, List.singleton_append,
            List.nil_append]
          obtain ⟨t, hct⟩ := renderMembers_head k v kvs
          refine pv_obj_ne f _ ?_ ((k, v) :: kvs) rest ?_
          · rw [hct, List.cons_append, skipWs_not_ws _ (by decide)]
            exact stripChar_none _ (by decide)
          · refine ih3 k v kvs rest ?_
            simp only [jsize] at hsz
            omega
    · -- parseElems inverts renderElems
      intro x xs rest hsz
      cases xs with
      | nil =>
        rw [show renderElems [x] = render x from by simp [renderElems]]
        refine parseElems_last f _ x rest (ih1 x (']' :: rest) ?_ ⟨by decide, by decide⟩)
        simp only [jsizeElems] at hsz
        omega
      | cons y ys =>
        rw [show renderElems (x :: y :: ys) =
          render x ++ ',' :: ' ' :: renderElems (y :: ys) from by simp [renderElems]]
        simp only [List.append_assoc, List.cons_append]
        have hf2 : 2 ≤ f + 1 := by
          have hx := jsize_pos x
          have hy := jsizeElems_pos y ys
          simp only [jsizeElems] at hsz
          omega
        obtain ⟨g, rfl⟩ : ∃ g, f = g + 1 := ⟨f - 1, by omega⟩
        refine parseElems_cons (g + 1) _ x
          (' ' :: (renderElems (y :: ys) ++ ']' :: rest)) ?_ (y :: ys) rest ?_
        · refine ih1 x _ ?_ ⟨by decide, by decide⟩
          simp only [jsizeElems] at hsz
          have := jsizeElems_pos y ys
          omega
        · rw [parseElems_cons_space g]
          refine ih2 y ys rest ?_
          simp only [jsizeElems] at hsz ⊢
          have := jsize_pos x
          omega
    · -- parseMembers inverts renderMembers
      intro k v kvs rest hsz
      cases kvs with
      | nil =>
        rw [show renderMembers [(k, v)] = renderKey k ++ render v from by
          simp [renderMembers]]
        rw [renderKey]
        simp only [List.cons_append, List.append_assoc, List.singleton_append,
            List.nil_append]
        have hlast := parseMembers_last f
          (escapeList k.data ++ '"' :: ':' :: ' ' :: (render v ++ rbrace :: rest))
          k.data (' ' :: (render v ++ rbrace :: rest)) v rest
          (parseStringBody_escapeList k.data _ (by
            have := escapeList_length_ge k.data
            simp only [List.length_append]
            omega) _)
          (by
            rw [parseValue_cons_space]
            refine ih1 v (rbrace :: rest) ?_ ⟨by decide, by decide⟩
            simp only [jsizeMembers] at hsz
            omega)
        rwa [stringMk_data] at hlast
      | cons kv2 kvs2 =>
        obtain ⟨k2, v2⟩ := kv2
        rw [show renderMembers ((k, v) :: (k2, v2) :: kvs2) =
          renderKey k ++ render v ++ ',' :: ' ' :: renderMembers ((k2, v2) :: kvs2)
          from by simp [renderMembers]]
        rw [renderKey]
        simp only [List.cons_append, List.append_assoc, List.singleton_append,
            List.nil_append]
        have hf2 : 2 ≤ f + 1 := by
          have hx := jsize_pos v
          have hy := jsizeMembers_pos (k2, v2) kvs2
          simp only [jsizeMembers] at hsz
          omega
        obtain ⟨g, rfl⟩ : ∃ g, f = g + 1 := ⟨f - 1, by omega⟩
        have hcons := parseMembers_cons (g + 1)
          (escapeList k.data ++ '"' :: ':' :: ' ' ::
            (render v ++ ',' :: ' ' :: (renderMembers ((k2, v2) :: kvs2) ++
              rbrace :: rest)))
          k.data
          (' ' :: (render v ++ ',' :: ' ' :: (renderMembers ((k2, v2) :: kvs2) ++
            rbrace :: rest)))
          v
          (' ' :: (renderMembers ((k2, v2) :: kvs2) ++ rbrace :: rest))
          ((k2, v2) :: kvs2) rest
          (parseStringBody_escapeList k.data _ (by
            have := escapeList_length_ge k.data
            simp only [List.length_append]
            omega) _)
          (by
            rw [parseValue_cons_space]
            refine ih1 v _ ?_ ⟨by decide, by decide⟩
            simp only [jsizeMembers] at hsz
            have := jsizeMembers_pos (k2, v2) kvs2
            omega)
          (by
            rw [parseMembers_cons_space g]
            refine ih3 k2 v2 kvs2 rest ?_
            simp only [jsizeMembers] at hsz ⊢
            have := jsize_pos v
            omega)
        rwa [stringMk_data] at hcons

theorem renderNum_length_pos (n : JNumber) : 1 ≤ (renderNum n).length := by
  obtain ⟨c, t, hct, _⟩ := renderNum_head n
  simp [hct]

theorem jsize_le_all : ∀ N : Nat,
    (∀ v : JsonValue, sizeOf v ≤ N → jsize v ≤ (render v).length) ∧
    (∀ (x : JsonValue) (xs : List JsonValue), sizeOf (x :: xs) ≤ N →
      jsizeElems (x :: xs) ≤ (renderElems (x :: xs)).length + 1) ∧
    (∀ (k : String) (v : JsonValue) (kvs : List (String × JsonValue)),
      sizeOf ((k, v) :: kvs) ≤ N →
      jsizeMembers ((k, v) :: kvs) ≤ (renderMembers ((k, v) :: kvs)).length + 1) := by
  intro N
  induction N using Nat.strong_induction_on with
  | _ N ih =>
    refine ⟨?_, ?_, ?_⟩
    · intro v hsz
      cases v with
      | null => simp [jsize, render]
      | bool b => cases b <;> simp [jsize, render]
      | num n =>
        have := renderNum_length_pos n
        simp only [jsize, render]
        omega
      | str s => simp [jsize, render]
      | arr xs =>
        cases xs with
        | nil => simp [jsize, jsizeElems, render]
        | cons x xs =>
          have hlt : sizeOf (x :: xs) < N := by
            have hspec : sizeOf (JsonValue.arr (x :: xs)) = 1 + sizeOf (x :: xs) := by
              simp
            omega
          have h2 := (ih (sizeOf (x :: xs)) hlt).2.1 x xs (le_refl _)
          simp only [jsize, render, List.length_cons, List.length_append]
          simp at h2
          omega
      | obj kvs =>
        cases kvs with
        | nil => simp [jsize, jsizeMembers, render]
        | cons kv kvs =>
          obtain ⟨k, v⟩ := kv
          have hlt : sizeOf ((k, v) :: kvs) < N := by
            have hspec : sizeOf (JsonValue.obj ((k, v) :: kvs)) =
                1 + sizeOf ((k, v) :: kvs) := by simp
            omega
          have h2 := (ih (sizeOf ((k, v) :: kvs)) hlt).2.2 k v kvs (le_refl _)
          simp only [jsize, render, List.length_cons, List.length_append]
          omega
    · intro x xs hsz
      cases xs with
      | nil =>
        have hlt : sizeOf x < N := by
          have : sizeOf (x :: ([] : List JsonValue)) = 1 + sizeOf x + 1 := by simp
          omega
        have h1 := (ih (sizeOf x) hlt).1 x (le_refl _)
        simp only [jsizeElems, renderElems]
        omega
      | cons y ys =>
        have hltx : sizeOf x < N := by
          have : sizeOf (x :: y :: ys) = 1 + sizeOf x + sizeOf (y :: ys) := by simp
          have : 0 < sizeOf (y :: ys) := by
            have : sizeOf (y :: ys) = 1 + sizeOf y + sizeOf ys := by simp
            omega
          omega
        have hlty : sizeOf (y :: ys) < N := by
          have : sizeOf (x :: y :: ys) = 1 + sizeOf x + sizeOf (y :: ys) := by simp
          omega
        have h1 := (ih (sizeOf x) hltx).1 x (le_refl _)
        have h2 := (ih (sizeOf (y :: ys)) hlty).2.1 y ys (le_refl _)
        rw [show renderElems (x :: y :: ys) =
          render x ++ ',' :: ' ' :: renderElems (y :: ys) from by simp [renderElems]]
        simp only [jsizeElems, List.length_append, List.length_cons] at h2 ⊢
        omega
    · intro k v kvs hsz
      cases kvs with
      | nil =>
        have hlt : sizeOf v < N := by
          have h1 : sizeOf ((k, v) :: ([] : List (String × JsonValue))) =
              1 + (1 + sizeOf k + sizeOf v) + 1 := by simp
          omega
        have h1 := (ih (sizeOf v) hlt).1 v (le_refl _)
        rw [show renderMembers [(k, v)] = renderKey k ++ render v from by
          simp [renderMembers]]
        simp only [jsizeMembers, jsizeElems, List.length_append]
        omega
      | cons kv2 kvs2 =>
        obtain ⟨k2, v2⟩ := kv2
        have hsp : sizeOf ((k, v) :: (k2, v2) :: kvs2) =
            1 + (1 + sizeOf k + sizeOf v) + sizeOf ((k2, v2) :: kvs2) := by simp
        have hpos : 0 < sizeOf ((k2, v2) :: kvs2) := by
          have : sizeOf ((k2, v2) :: kvs2) = 1 + (1 + sizeOf k2 + sizeOf v2) +
              sizeOf kvs2 := by simp
          omega
        have hltv : sizeOf v < N := by omega
        have hltr : sizeOf ((k2, v2) :: kvs2) < N := by omega
        have h1 := (ih (sizeOf v) hltv).1 v (le_refl _)
        have h2 := (ih (sizeOf ((k2, v2) :: kvs2)) hltr).2.2 k2 v2 kvs2 (le_refl _)
        rw [show renderMembers ((k, v) :: (k2, v2) :: kvs2) =
          renderKey k ++ render v ++ ',' :: ' ' :: renderMembers ((k2, v2) :: kvs2)
          from by simp [renderMembers]]
        simp only [jsizeMembers, List.length_append, List.length_cons] at h2 ⊢
        omega

theorem jsize_le_render (v : JsonValue) : jsize v ≤ (render v).length :=
  (jsize_le_all (sizeOf v)).1 v (le_refl _)

/-- The codec round trip at document level: parsing a rendered document
gives back exactly the document. -/
theorem json_loads_dumps (v : JsonValue) : json_loads (json_dumps v) = some v := by
  unfold json_loads json_dumps
  have h := (parse_render_all ((render v).length + 1)).1 v []
    (by have := jsize_le_render v; omega) trivial
  rw [List.append_nil] at h
  rw [h]
  rfl

theorem deserialize_serialize (v : JsonValue) :
    deserialize_message (serialize_message (.json v)) = v := by
  unfold deserialize_message serialize_message
  rw [json_loads_dumps]

theorem displayMeasurements_cons (m : Measurement) (ms : List JsonValue) :
    displayMeasurements (measurementJson m :: ms) =
      (displayMeasurements ms).bind (fun rest =>
        .ok ({ parameter := .str m.parameter, value := .num m.value,
               unit := .str m.unit, exceeded := m.threshold_exceeded } :: rest)) := rfl

theorem displayMeasurements_map (ms : List Measurement) :
    displayMeasurements (ms.map measurementJson) =
      .ok (ms.map fun m =>
        { parameter := .str m.parameter, value := .num m.value,
          unit := .str m.unit, exceeded := m.threshold_exceeded }) := by
  induction ms with
  | nil => rfl
  | cons m ms ih =>
    rw [List.map_cons, displayMeasurements_cons, ih]
    rfl

theorem alertsOf_cons (m : Measurement) (ms : List JsonValue) :
    alertsOf (measurementJson m :: ms) =
      (alertsOf ms).bind (fun rest =>
        .ok (if m.threshold_exceeded then measurementJson m :: rest else rest)) := rfl

theorem alertsOf_map (ms : List Measurement) :
    alertsOf (ms.map measurementJson) =
      .ok ((ms.filter (·.threshold_exceeded)).map measurementJson) := by
  induction ms with
  | nil => rfl
  | cons m ms ih =>
    rw [List.map_cons, alertsOf_cons, ih]
    cases hm : m.threshold_exceeded with
    | true => simp [List.filter_cons, hm, Except.bind]
    | false => simp [List.filter_cons, hm, Except.bind]

theorem display_notification_unfold (st : NotifierState) (envTs : String)
    (u : UploadRecord) :
    display_notification st (notificationJson envTs (uploadJson u)) =
      ({ notification_count := st.notification_count + 1 },
        (displayMeasurements (u.measurements.map measurementJson)).bind (fun lines =>
          (alertsOf (u.measurements.map measurementJson)).bind (fun alerts =>
            .ok { batch_id := .str u.batch_id, timestamp := .str u.timestamp,
                  location := .str u.location, entity := .str u.reporting_entity,
                  lines := lines,
                  alertBanner := if alerts.length = 0 then none
                                 else some alerts.length }))) := rfl

theorem display_notification_producible (st : NotifierState) (envTs : String)
    (u : UploadRecord) :
    display_notification st (notificationJson envTs (uploadJson u)) =
      ({ notification_count := st.notification_count + 1 },
        .ok { batch_id := .str u.batch_id, timestamp := .str u.timestamp,
              location := .str u.location, entity := .str u.reporting_entity,
              lines := u.measurements.map fun m =>
                { parameter := .str m.parameter, value := .num m.value,
                  unit := .str m.unit, exceeded := m.threshold_exceeded },
              alertBanner :=
                if ((u.measurements.filter (·.threshold_exceeded)).map
                    measurementJson).length = 0 then none
                else some ((u.measurements.filter (·.threshold_exceeded)).map
                  measurementJson).length }) := by
  rw [display_notification_unfold, displayMeasurements_map, alertsOf_map]
  rfl

/-- C1: Codec round-trip: for every record producible by the Publisher (an
envelope with event_type, timestamp string, and an upload record generated
by `simulate_data_upload` from any random source), decoding the serialized
message gives back exactly the same record, with field set, nesting and
numeric values preserved. -/
theorem claim_C1_codec_roundtrip (src : RandomSource) (envTs : String) :
    deserialize_message (serialize_message (.json
      (notificationJson envTs (uploadJson (simulate_data_upload src))))) =
      notificationJson envTs (uploadJson (simulate_data_upload src)) :=
  deserialize_serialize _

/-- C3: Codec totality under failure: for every wire input,
`deserialize_message` returns either the parsed record or the decode-error
marker and never propagates a fault; for every input value,
`serialize_message` returns either the normal payload or the payload
encoding the serialization-error marker, and never propagates a fault. -/
theorem claim_C3_codec_totality :
    (∀ body : List Char,
      (∃ v, json_loads body = some v ∧ deserialize_message body = v) ∨
      deserialize_message body = decodeErrorMarker) ∧
    (∀ x : PyData,
      (∃ v, x = .json v ∧ serialize_message x = json_dumps v) ∨
      serialize_message x = json_dumps serializeErrorMarker) := by
  constructor
  · intro body
    unfold deserialize_message
    cases h : json_loads body with
    | none => exact Or.inr rfl
    | some v => exact Or.inl ⟨v, rfl, rfl⟩
  · intro x
    cases x with
    | json v => exact Or.inl ⟨v, rfl, rfl⟩
    | unserializable => exact Or.inr rfl

/-- C4: Startup failure path: when the broker is unreachable or rejects the
credentials, `connect` returns `false` rather than raising, and both the
consumer's and the publisher's `main` log the connection-failure line and
exit before entering their message loop, with no fault escaping. -/
theorem claim_C4_startup_failure :
    connect .unreachable = false ∧ connect .rejectsCredentials = false ∧
    (∀ b : BrokerStartup, connect b = false →
      consumer_main b = .ok (.exitedBeforeLoop, [CONNECT_FAILED_LOG]) ∧
      publisher_main b = .ok (.exitedBeforeLoop, [CONNECT_FAILED_LOG])) := by
  refine ⟨rfl, rfl, ?_⟩
  intro b hb
  constructor
  · unfold consumer_main
    rw [hb]
    rfl
  · unfold publisher_main
    rw [hb]
    rfl

theorem claim_C4_witness :
    connect BrokerStartup.unreachable = false ∧
    consumer_main BrokerStartup.unreachable =
      .ok (.exitedBeforeLoop, [CONNECT_FAILED_LOG]) ∧
    publisher_main BrokerStartup.unreachable =
      .ok (.exitedBeforeLoop, [CONNECT_FAILED_LOG]) := by
  have h := claim_C4_startup_failure
  exact ⟨h.1, (h.2.2 BrokerStartup.unreachable h.1).1,
    (h.2.2 BrokerStartup.unreachable h.1).2⟩

/-- C6: Publish postcondition: every `publish_notification` call attempts
exactly one `basic_publish` of the serialized envelope to the exchange
`observatorio_events` under the routing key `water.data.uploaded`, with
persistent delivery mode 2 and content type `application/json`, regardless
of the transport's outcome. -/
theorem claim_C6_publish_postcondition (t : Transport) (envTs : String)
    (data : JsonValue) :
    (publish_notification t envTs data).attempts =
      [{ exchange := EXCHANGE_NAME
         routing_key := ROUTING_KEY
         body := serialize_message (.json (notificationJson envTs data))
         delivery_mode := 2
         content_type := "application/json" }] ∧
    EXCHANGE_NAME = "observatorio_events" ∧
    ROUTING_KEY = "water.data.uploaded" := by
  refine ⟨?_, rfl, rfl⟩
  cases t with
  | accepts =>
    unfold publish_notification
    cases h : dictGet data "batch_id" <;> simp [h]
  | rejects msg => rfl

/-- C2: Per-message acknowledgment discipline: `process_message` decodes
the body, hands exactly the decoded record to the notifier, and its trace
contains the broker acknowledgment if and only if the handler returned
normally — the ack step comes after the handler step, and a handler fault
leaves the message unacknowledged. -/
theorem claim_C2_ack_discipline (st : NotifierState) (tag : Nat) (body : List Char) :
    (process_message st tag body).state =
      (display_notification st (deserialize_message body)).1 ∧
    (process_message st tag body).trace =
      .decoded (deserialize_message body) ::
      .handled (deserialize_message body) (process_message st tag body).fault.isNone ::
      (if (process_message st tag body).fault.isNone
        then [Step.acked tag] else []) ∧
    ((process_message st tag body).fault = none ↔
      ∃ out, (display_notification st (deserialize_message body)).2 = .ok out) ∧
    (Step.acked tag ∈ (process_message st tag body).trace ↔
      (process_message st tag body).fault = none) := by
  rcases hd : (display_notification st (deserialize_message body)).2 with e | out <;>
    simp only [process_message, hd] <;> simp

/-- C5: Publish error handling: for every transport-level rejection,
`publish_notification` returns `false` with the error logged and makes no
second attempt; on success it returns `true` and logs the one-line summary
keyed by the record's `batch_id`.  In every case exactly one publish is
attempted (no retry). -/
theorem claim_C5_publish_error_handling (t : Transport) (envTs : String)
    (data : JsonValue) (bid : JsonValue)
    (h : dictGet data "batch_id" = .ok bid) :
    (publish_notification t envTs data).attempts.length = 1 ∧
    (∀ msg, t = .rejects msg →
      (publish_notification t envTs data).ok = false ∧
      (publish_notification t envTs data).logs = [.publishError msg]) ∧
    (t = .accepts →
      (publish_notification t envTs data).ok = true ∧
      (publish_notification t envTs data).logs = [.publishedSummary bid]) := by
  cases t with
  | accepts =>
    refine ⟨?_, ?_, ?_⟩
    · unfold publish_notification
      rw [h]
      rfl
    · intro msg hmsg
      exact absurd hmsg (by simp)
    · intro _
      unfold publish_notification
      rw [h]
      exact ⟨rfl, rfl⟩
  | rejects m =>
    refine ⟨rfl, ?_, ?_⟩
    · intro msg hmsg
      cases hmsg
      exact ⟨rfl, rfl⟩
    · intro hacc
      cases hacc

theorem claim_C5_witness :
    (publish_notification .accepts "ts" (.obj [("batch_id", .str "b-1")])).attempts.length
      = 1 ∧
    (publish_notification .accepts "ts" (.obj [("batch_id", .str "b-1")])).ok = true ∧
    (publish_notification .accepts "ts" (.obj [("batch_id", .str "b-1")])).logs =
      [.publishedSummary (.str "b-1")] := by
  have h := claim_C5_publish_error_handling .accepts "ts"
    (.obj [("batch_id", .str "b-1")]) (.str "b-1") rfl
  exact ⟨h.1, (h.2.2 rfl).1, (h.2.2 rfl).2⟩

/-- C7: Prefetch/ack discipline: `setup_consumer` sets the prefetch limit
to 1 before registering the consumer callback, and under the glossary
semantics of prefetch (a delivery is only possible while fewer than
`prefetch` messages are unacknowledged) a prefetch-1 consumer never has
more than one unacknowledged message outstanding. -/
theorem claim_C7_prefetch_discipline :
    (setup_consumer.indexOf (.basicQos 1) <
      setup_consumer.indexOf (.basicConsume QUEUE_NAME) ∧
     ChanOp.basicQos 1 ∈ setup_consumer ∧
     ChanOp.basicConsume QUEUE_NAME ∈ setup_consumer) ∧
    (∀ es n, ValidTrace 1 es n → n ≤ 1) := by
  constructor
  · refine ⟨by decide, by decide, by decide⟩
  · intro es n h
    induction h with
    | nil => omega
    | deliver _ hlt ih => omega
    | ack _ hpos ih => omega

theorem claim_C7_witness :
    ChanOp.basicQos 1 ∈ setup_consumer ∧ (1 : Nat) ≤ 1 :=
  ⟨claim_C7_prefetch_discipline.1.2.1,
    claim_C7_prefetch_discipline.2 [BrokerEvent.deliver] 1
      (ValidTrace.deliver ValidTrace.nil (by omega))⟩

/-- C8: Rendered alert count: for every decoded envelope the consumer
displays, the alert banner counts exactly the measurements whose
`threshold_exceeded` field is true (and is absent when there are none); in
particular two measurements with exactly one flag set render one alert,
and a single unflagged measurement renders zero alerts. -/
theorem claim_C8_alert_count (st : NotifierState) (envTs : String)
    (u : UploadRecord) :
    (∃ out, (display_notification st (notificationJson envTs (uploadJson u))).2 =
        .ok out ∧
      out.alertBanner.getD 0 =
        (u.measurements.filter (·.threshold_exceeded)).length ∧
      out.alertBanner = (if (u.measurements.filter (·.threshold_exceeded)).length = 0
        then none
        else some (u.measurements.filter (·.threshold_exceeded)).length) ∧
      out.lines.length = u.measurements.length ∧
      (u.measurements.filter (·.threshold_exceeded)).length =
        u.measurements.countP (·.threshold_exceeded)) ∧
    (∃ outB, (display_notification ⟨0⟩ (notificationJson "tB" (uploadJson
      { batch_id := "b", timestamp := "t", location := "l",
        reporting_entity := "e",
        measurements := [⟨"pH", .dec 70 0, "pH", true⟩,
                         ⟨"Turbidez", .dec 12 0, "NTU", false⟩],
        device_id := "SENSOR-1", upload_method := "API",
        comments := "c" }))).2 = .ok outB ∧ outB.alertBanner = some 1) ∧
    (∃ outA, (display_notification ⟨0⟩ (notificationJson "tA" (uploadJson
      { batch_id := "b", timestamp := "t", location := "l",
        reporting_entity := "e",
        measurements := [⟨"Temperatura", .dec 201 0, "°C", false⟩],
        device_id := "SENSOR-2", upload_method := "API",
        comments := "c" }))).2 = .ok outA ∧ outA.alertBanner = none) := by
  refine ⟨?_, ?_, ?_⟩
  · refine ⟨_, by rw [display_notification_producible], ?_, ?_, ?_, ?_⟩
    · cases hn : (u.measurements.filter (·.threshold_exceeded)).length with
      | zero => simp [List.length_map, hn]
      | succ k => simp [List.length_map, hn]
    · simp [List.length_map]
    · simp [List.length_map]
    · rw [List.countP_eq_length_filter]
  · exact ⟨_, by rw [display_notification_producible], by decide⟩
  · exact ⟨_, by rw [display_notification_producible], by decide⟩

/-- C9: Producer cardinality invariant: every upload record generated by
`simulate_data_upload` has between 3 and 10 measurements inclusive (hence
non-empty), and in its JSON form each measurement object carries the
`parameter`, `value`, `unit` and `threshold_exceeded` fields. -/
theorem claim_C9_producer_cardinality (src : RandomSource) :
    3 ≤ (simulate_data_upload src).measurements.length ∧
    (simulate_data_upload src).measurements.length ≤ 10 ∧
    0 < (simulate_data_upload src).measurements.length ∧
    ∃ ms, dictGet (uploadJson (simulate_data_upload src)) "measurements" =
        .ok (.arr ms) ∧
      ms.length = (simulate_data_upload src).measurements.length ∧
      ms.Forall (fun mj =>
        (∃ v, dictGet mj "parameter" = .ok v) ∧
        (∃ v, dictGet mj "value" = .ok v) ∧
        (∃ v, dictGet mj "unit" = .ok v) ∧
        (∃ v, dictGet mj "threshold_exceeded" = .ok v)) := by
  have hlen : (simulate_data_upload src).measurements.length =
      3 + src.numSeed % 8 := by
    simp [simulate_data_upload, randint]
  have hmod : src.numSeed % 8 < 8 := Nat.mod_lt _ (by omega)
  refine ⟨by omega, by omega, by omega, ?_⟩
  refine ⟨(simulate_data_upload src).measurements.map measurementJson, rfl,
    by rw [List.length_map], ?_⟩
  generalize (simulate_data_upload src).measurements = ms
  induction ms with
  | nil => simp [List.Forall]
  | cons m ms ih =>
    rw [List.map_cons, List.forall_cons]
    exact ⟨⟨⟨_, rfl⟩, ⟨_, rfl⟩, ⟨_, rfl⟩, ⟨_, rfl⟩⟩, ih⟩

theorem ebind_ok {α β : Type} (a : α) (f : α → Except PyError β) :
    Except.bind (Except.ok a) f = f a := rfl

theorem ebind_error {α β : Type} (e : PyError) (f : α → Except PyError β) :
    Except.bind (Except.error e) f = .error e := rfl

theorem dictGet_obj_none (kvs : List (String × JsonValue)) (k : String)
    (h : kvs.lookup k = none) :
    dictGet (.obj kvs) k = .error (.keyError k) := by
  have hu : dictGet (.obj kvs) k =
      match kvs.lookup k with
      | some v => .ok v
      | none => .error (.keyError k) := rfl
  rw [hu, h]

theorem dictGet_obj_some (kvs : List (String × JsonValue)) (k : String)
    (v : JsonValue) (h : kvs.lookup k = some v) :
    dictGet (.obj kvs) k = .ok v := by
  have hu : dictGet (.obj kvs) k =
      match kvs.lookup k with
      | some w => .ok w
      | none => .error (.keyError k) := rfl
  rw [hu, h]

/-- The rendered output of `display_notification` as an explicit
`Except.bind` chain, used to trace which field access faults. -/
theorem display_notification_bind (st : NotifierState) (data : JsonValue) :
    (display_notification st data).2 =
      (dictGet data "data").bind fun d =>
      (dictGet d "batch_id").bind fun batch_id =>
      (dictGet d "timestamp").bind fun ts =>
      (dictGet d "location").bind fun loc =>
      (dictGet d "reporting_entity").bind fun ent =>
      (dictGet d "measurements").bind fun meas =>
      match meas with
      | .arr ms =>
        (displayMeasurements ms).bind fun lines =>
        (alertsOf ms).bind fun alerts =>
        .ok { batch_id := batch_id, timestamp := ts, location := loc,
              entity := ent, lines := lines,
              alertBanner := if alerts.length = 0 then none
                             else some alerts.length }
      | _ => .error (.typeError "not iterable") := rfl

theorem display_fault_of_data_error (st : NotifierState) (data : JsonValue)
    (e : PyError) (he : dictGet data "data" = .error e) :
    (display_notification st data).2 = .error e := by
  rw [display_notification_bind, he, ebind_error]

/-- When the decoded record's `data` dict is missing a required subfield,
the handler's field accesses fault with a `KeyError` on the first missing
one, in the source's access order. -/
theorem display_fault_missing_field (st : NotifierState) (data : JsonValue)
    (kvs : List (String × JsonValue)) (k : String)
    (hd : dictGet data "data" = .ok (.obj kvs))
    (hm : firstMissingField kvs = some k) :
    (display_notification st data).2 = .error (.keyError k) := by
  rw [display_notification_bind, hd]
  simp only [ebind_ok]
  cases h1 : kvs.lookup "batch_id" with
  | none =>
    have hk : k = "batch_id" := by
      simp [firstMissingField, REQUIRED_DATA_FIELDS, List.find?, h1] at hm
      exact hm.symm
    subst hk
    rw [dictGet_obj_none _ _ h1, ebind_error]
  | some v1 =>
    rw [dictGet_obj_some _ _ _ h1]
    simp only [ebind_ok]
    cases h2 : kvs.lookup "timestamp" with
    | none =>
      have hk : k = "timestamp" := by
        simp [firstMissingField, REQUIRED_DATA_FIELDS, List.find?, h1, h2] at hm
        exact hm.symm
      subst hk
      rw [dictGet_obj_none _ _ h2, ebind_error]
    | some v2 =>
      rw [dictGet_obj_some _ _ _ h2]
      simp only [ebind_ok]
      cases h3 : kvs.lookup "location" with
      | none =>
        have hk : k = "location" := by
          simp [firstMissingField, REQUIRED_DATA_FIELDS, List.find?,
            h1, h2, h3] at hm
          exact hm.symm
        subst hk
        rw [dictGet_obj_none _ _ h3, ebind_error]
      | some v3 =>
        rw [dictGet_obj_some _ _ _ h3]
        simp only [ebind_ok]
        cases h4 : kvs.lookup "reporting_entity" with
        | none =>
          have hk : k = "reporting_entity" := by
            simp [firstMissingField, REQUIRED_DATA_FIELDS, List.find?,
              h1, h2, h3, h4] at hm
            exact hm.symm
          subst hk
          rw [dictGet_obj_none _ _ h4, ebind_error]
        | some v4 =>
          rw [dictGet_obj_some _ _ _ h4]
          simp only [ebind_ok]
          cases h5 : kvs.lookup "measurements" with
          | none =>
            have hk : k = "measurements" := by
              simp [firstMissingField, REQUIRED_DATA_FIELDS, List.find?,
                h1, h2, h3, h4, h5] at hm
              exact hm.symm
            subst hk
            rw [dictGet_obj_none _ _ h5, ebind_error]
          | some v5 =>
            simp [firstMissingField, REQUIRED_DATA_FIELDS, List.find?,
              h1, h2, h3, h4, h5] at hm

/-- A faulting handler leaves the fault in the result and keeps
`process_message` from reaching the acknowledgment line. -/
theorem pm_fault_of_display (st : NotifierState) (tag : Nat)
    (body : List Char) (e : PyError)
    (he : (display_notification st (deserialize_message body)).2 = .error e) :
    (process_message st tag body).fault = some e ∧
    Step.acked tag ∉ (process_message st tag body).trace := by
  constructor
  · simp only [process_message, he]
  · simp only [process_message, he]
    simp

/-- C10: A payload that fails to decode produces the error-marker record,
which has no `data` key, so the consumer's handler raises a `KeyError`
before the acknowledgment line runs and the message is never acknowledged.
The same holds for any decoded record whose `data` subscript raises, and
for any decoded record whose `data` dict is missing a required subfield
(`batch_id`, `timestamp`, `location`, `reporting_entity` or
`measurements`): the handler raises a `KeyError` on the first missing one
and the message is never acknowledged. -/
theorem claim_C10_marker_never_acked (st : NotifierState) (tag : Nat)
    (body : List Char) (h : json_loads body = none) :
    deserialize_message body = decodeErrorMarker ∧
    dictGet (deserialize_message body) "data" = .error (.keyError "data") ∧
    (process_message st tag body).fault = some (.keyError "data") ∧
    Step.acked tag ∉ (process_message st tag body).trace ∧
    (∀ st2 tag2 body2 e, dictGet (deserialize_message body2) "data" = .error e →
      (process_message st2 tag2 body2).fault = some e ∧
      Step.acked tag2 ∉ (process_message st2 tag2 body2).trace) ∧
    (∀ st2 tag2 body2 kvs k,
      dictGet (deserialize_message body2) "data" = .ok (.obj kvs) →
      firstMissingField kvs = some k →
      (process_message st2 tag2 body2).fault = some (.keyError k) ∧
      Step.acked tag2 ∉ (process_message st2 tag2 body2).trace) := by
  have hgen : ∀ st2 tag2 body2 e,
      dictGet (deserialize_message body2) "data" = .error e →
      (process_message st2 tag2 body2).fault = some e ∧
      Step.acked tag2 ∉ (process_message st2 tag2 body2).trace :=
    fun st2 tag2 body2 e he =>
      pm_fault_of_display st2 tag2 body2 e
        (display_fault_of_data_error st2 _ e he)
  have hsub : ∀ st2 tag2 body2 kvs k,
      dictGet (deserialize_message body2) "data" = .ok (.obj kvs) →
      firstMissingField kvs = some k →
      (process_message st2 tag2 body2).fault = some (.keyError k) ∧
      Step.acked tag2 ∉ (process_message st2 tag2 body2).trace :=
    fun st2 tag2 body2 kvs k hd hm =>
      pm_fault_of_display st2 tag2 body2 _
        (display_fault_missing_field st2 _ kvs k hd hm)
  have hmark : deserialize_message body = decodeErrorMarker := by
    unfold deserialize_message
    rw [h]
  have hkey : dictGet (deserialize_message body) "data" =
      .error (.keyError "data") := by
    rw [hmark]
    rfl
  have hmain := hgen st tag body (.keyError "data") hkey
  exact ⟨hmark, hkey, hmain.1, hmain.2, hgen, hsub⟩

theorem claim_C10_witness :
    deserialize_message ['x'] = decodeErrorMarker ∧
    (process_message ⟨0⟩ 7 ['x']).fault = some (.keyError "data") ∧
    Step.acked 7 ∉ (process_message ⟨0⟩ 7 ['x']).trace ∧
    (process_message ⟨0⟩ 9
        (serialize_message (.json (.obj [("data", .obj [])])))).fault =
      some (.keyError "batch_id") ∧
    Step.acked 9 ∉ (process_message ⟨0⟩ 9
      (serialize_message (.json (.obj [("data", .obj [])])))).trace := by
  have h := claim_C10_marker_never_acked ⟨0⟩ 7 ['x'] rfl
  have hd : dictGet (deserialize_message
      (serialize_message (.json (.obj [("data", .obj [])])))) "data" =
      .ok (.obj []) := by
    rw [deserialize_serialize]
    rfl
  have hsub := h.2.2.2.2.2 ⟨0⟩ 9
    (serialize_message (.json (.obj [("data", .obj [])]))) [] "batch_id" hd rfl
  exact ⟨h.1, h.2.2.1, h.2.2.2.1, hsub.1, hsub.2⟩
